import Mathlib

/-!
Verification of the OpenSpec reconciliation core (profiles, update command,
one-time migration, init command) against its natural-language specification.

The development is a shallow embedding of the TypeScript sources:

* `src/src/core/profiles.ts` — `CORE_WORKFLOWS`, `ALL_WORKFLOWS`,
  `getProfileWorkflows`, `WORKFLOW_TO_SKILL_DIR`, and the `UpdateCommand`
  class (`execute`, `hasProfileOrDeliveryDrift`, `removeSkillDirs`,
  `removeCommandFiles`, `displayExtraWorkflowsNote`).
* `src/src/core/migration.ts` — `scanInstalledWorkflows`, `migrateIfNeeded`.
* `src/unnamed/part_000` — the `InitCommand` class (`execute`,
  `resolveProfileOverride`, `generateSkillsAndCommands`).

Workflow identifiers, profiles and delivery modes are kept as `String`,
as in the source.  The per-tool filesystem footprint is modelled as a
record of three maps (skill directory present, skill file present with an
optional embedded version marker, command file present).  Filesystem
operations that can fail (writes and removals) take an explicit success
function so that failure injection is expressible; a `false` entry means
the corresponding `fs` call throws for that path.

The version/status probe (`getToolVersionStatus`) and the global-config
store live in repository files that are not part of the provided sources;
they are modelled from the specification where needed and marked as such.
-/

namespace OpenSpec

/-- Core workflows of the `core` profile (`CORE_WORKFLOWS` in profiles.ts). -/
def CORE_WORKFLOWS : List String := ["propose", "explore", "apply", "archive"]

/-- All available workflows (`ALL_WORKFLOWS` in profiles.ts). -/
def ALL_WORKFLOWS : List String :=
  ["propose", "explore", "new", "continue", "apply", "archive", "verify"]

/-- Resolves active workflows for a profile (`getProfileWorkflows` in
profiles.ts): `custom` returns the provided list (or empty when absent),
anything else returns `CORE_WORKFLOWS`. -/
def getProfileWorkflows (profile : String) (customWorkflows : Option (List String)) :
    List String :=
  if profile = "custom" then customWorkflows.getD [] else CORE_WORKFLOWS

/-- Workflow-id to skill-directory map used by the update command
(`WORKFLOW_TO_SKILL_DIR` in profiles.ts, in its source order). -/
def WORKFLOW_TO_SKILL_DIR : List (String × String) :=
  [("explore", "openspec-explore"),
   ("new", "openspec-new-change"),
   ("continue", "openspec-continue-change"),
   ("apply", "openspec-apply-change"),
   ("archive", "openspec-archive-change"),
   ("verify", "openspec-verify-change"),
   ("propose", "openspec-propose")]

/-- Workflow-id to skill-directory map used by the migration module
(`WORKFLOW_TO_SKILL_DIR` in migration.ts; same pairs, `propose` first). -/
def MIGRATION_WORKFLOW_TO_SKILL_DIR : List (String × String) :=
  [("propose", "openspec-propose"),
   ("explore", "openspec-explore"),
   ("new", "openspec-new-change"),
   ("continue", "openspec-continue-change"),
   ("apply", "openspec-apply-change"),
   ("archive", "openspec-archive-change"),
   ("verify", "openspec-verify-change")]

/-- Lookup in a workflow-to-directory map (the `WORKFLOW_TO_SKILL_DIR[workflow]`
record access in the source; `none` models `undefined`). -/
def lookupSkillDir (m : List (String × String)) (w : String) : Option String :=
  (m.find? (fun p => p.1 = w)).map (fun p => p.2)

/-- Order in which the template catalog lists skill and command templates
(`getSkillTemplates` / `getCommandTemplates` in shared/skill-generation.ts).
Filtering by a workflow set preserves this order. -/
def TEMPLATE_ORDER : List String :=
  ["explore", "new", "continue", "apply", "archive", "verify", "propose"]

/-- Delivery decides skill generation (`delivery !== 'commands'` in
update.execute step 5 and init.generateSkillsAndCommands). -/
def shouldGenerateSkills (delivery : String) : Bool := delivery ≠ "commands"

/-- Delivery decides command generation (`delivery !== 'skills'`). -/
def shouldGenerateCommands (delivery : String) : Bool := delivery ≠ "skills"

/-- Per-tool generation switches applied by `InitCommand.generateSkillsAndCommands`:
the tool whose id is `claude` never generates skills and always generates
commands; every other tool follows the delivery-derived switches. -/
def initToolGenerate (toolValue : String) (genSkills genCommands : Bool) :
    Bool × Bool :=
  if toolValue = "claude" then (false, true) else (genSkills, genCommands)

/-- On-disk managed footprint of one tool.  `skillFile w = some m` means the
`SKILL.md` of workflow `w` exists and `m` is its `generatedBy` marker
(`none` when the file embeds no marker); `skillDir w` is the existence of
the skill directory itself; `cmdFile w` is the existence of the generated
command file of workflow `w`. -/
structure ToolFs where
  skillDir : String → Bool
  skillFile : String → Option (Option String)
  cmdFile : String → Bool

/-- The empty footprint: no managed artifact exists. -/
def ToolFs.empty : ToolFs :=
  { skillDir := fun _ => false, skillFile := fun _ => none, cmdFile := fun _ => false }

/-- Writing a skill file (`FileSystemUtils.writeFile` of `SKILL.md` with the
current version embedded as `generatedBy`); creates the directory. -/
def ToolFs.writeSkill (fs : ToolFs) (w v : String) : ToolFs :=
  { fs with
    skillDir := fun u => if u = w then true else fs.skillDir u,
    skillFile := fun u => if u = w then some (some v) else fs.skillFile u }

/-- Writing a command file for workflow `w`. -/
def ToolFs.writeCmd (fs : ToolFs) (w : String) : ToolFs :=
  { fs with cmdFile := fun u => if u = w then true else fs.cmdFile u }

/-- Recursive removal of the skill directory of workflow `w` (removes the
directory and the file inside it). -/
def ToolFs.rmSkillDir (fs : ToolFs) (w : String) : ToolFs :=
  { fs with
    skillDir := fun u => if u = w then false else fs.skillDir u,
    skillFile := fun u => if u = w then none else fs.skillFile u }

/-- Unlinking the command file of workflow `w`. -/
def ToolFs.rmCmdFile (fs : ToolFs) (w : String) : ToolFs :=
  { fs with cmdFile := fun u => if u = w then false else fs.cmdFile u }

/-- One tool as seen by an update run: its static registry entry
(`AI_TOOLS` id, display name, presence of a `skillsDir`, presence of a
command adapter in `CommandAdapterRegistry`), its current on-disk
footprint, and the success functions of the fallible filesystem calls
touching it (`false` at a workflow means the corresponding write or
removal throws). -/
structure ToolInput where
  toolId : String
  name : String
  hasSkillsDir : Bool
  hasAdapter : Bool
  fs : ToolFs
  skillWriteOk : String → Bool
  cmdWriteOk : String → Bool
  skillRmOk : String → Bool
  cmdRmOk : String → Bool

/-- All fallible filesystem operations of a tool succeed. -/
def ToolInput.allOpsOk (t : ToolInput) : Prop :=
  (∀ w, t.skillWriteOk w = true) ∧ (∀ w, t.cmdWriteOk w = true) ∧
  (∀ w, t.skillRmOk w = true) ∧ (∀ w, t.cmdRmOk w = true)

/-- Modelled from the spec: the version/status probe `getToolVersionStatus`
(shared module, not among the provided sources).  Per §4.1 the probe reads
the first managed file found, skills taking priority over commands, and
extracts the `generatedBy` marker; a missing or unparsable marker yields
`null`.  Generated command files embed no marker (the only adapter among
the sources, claude-internal, emits none), so the marker comes from the
first existing skill file; the scan order of skill directories is not
specified and is modelled as the catalog order. -/
def probeGeneratedByVersion (fs : ToolFs) : Option String :=
  (ALL_WORKFLOWS.findSome? (fun w => fs.skillFile w)).join

/-- Modelled from the spec: `needsUpdate` of the version/status probe is
true exactly when the extracted marker is absent or differs from the
current version by exact string comparison (§4.1). -/
def statusNeedsUpdate (fs : ToolFs) (currentVersion : String) : Bool :=
  match probeGeneratedByVersion fs with
  | none => true
  | some g => g ≠ currentVersion

/-- Drift detection (`UpdateCommand.hasProfileOrDeliveryDrift`): a tool
without a `skillsDir` never drifts; otherwise, when skills are generated a
missing skill file of a desired workflow is drift, when they are not a
present skill directory of any catalog workflow is drift; symmetrically
for command files when the tool has an adapter. -/
def hasProfileOrDeliveryDrift (t : ToolInput) (profileWorkflows : List String)
    (genSkills genCommands : Bool) : Bool :=
  if !t.hasSkillsDir then false
  else
    let skillDrift :=
      if genSkills then
        profileWorkflows.any (fun w =>
          (lookupSkillDir WORKFLOW_TO_SKILL_DIR w).isSome &&
            (t.fs.skillFile w).isNone)
      else
        ALL_WORKFLOWS.any (fun w =>
          (lookupSkillDir WORKFLOW_TO_SKILL_DIR w).isSome && t.fs.skillDir w)
    let cmdDrift :=
      if genCommands && t.hasAdapter then
        profileWorkflows.any (fun w => !t.fs.cmdFile w)
      else if !genCommands && t.hasAdapter then
        ALL_WORKFLOWS.any (fun w => t.fs.cmdFile w)
      else false
    skillDrift || cmdDrift

/-- One iteration of the `removeSkillDirs` loop: skip workflows without a
map entry, remove an existing directory when `rm` succeeds, and swallow a
failed `rm` (`catch { /* Ignore errors */ }`: the directory stays, is not
counted, and is not reported). -/
def removeSkillStep (rmOk : String → Bool) (acc : ToolFs × Nat) (w : String) :
    ToolFs × Nat :=
  match lookupSkillDir WORKFLOW_TO_SKILL_DIR w with
  | none => acc
  | some _ =>
    if acc.1.skillDir w then
      if rmOk w then (acc.1.rmSkillDir w, acc.2 + 1) else acc
    else acc

/-- Skill-directory cleanup (`UpdateCommand.removeSkillDirs`): iterates the
full catalog and removes each existing skill directory, counting removals. -/
def removeSkillDirsM (rmOk : String → Bool) (fs : ToolFs) : ToolFs × Nat :=
  ALL_WORKFLOWS.foldl (removeSkillStep rmOk) (fs, 0)

/-- One iteration of the `removeCommandFiles` loop: unlink an existing
command file when `unlink` succeeds, and swallow a failed `unlink`. -/
def removeCmdStep (rmOk : String → Bool) (acc : ToolFs × Nat) (w : String) :
    ToolFs × Nat :=
  if acc.1.cmdFile w then
    if rmOk w then (acc.1.rmCmdFile w, acc.2 + 1) else acc
  else acc

/-- Command-file cleanup (`UpdateCommand.removeCommandFiles`): returns 0 at
once for tools without an adapter; otherwise iterates the full catalog and
unlinks each existing command file, counting removals. -/
def removeCommandFilesM (rmOk : String → Bool) (hasAdapter : Bool) (fs : ToolFs) :
    ToolFs × Nat :=
  if !hasAdapter then (fs, 0)
  else ALL_WORKFLOWS.foldl (removeCmdStep rmOk) (fs, 0)

/-- Sequential skill-file writes of the reconcile loop body: the first
failing write throws, leaving earlier writes on disk; returns the updated
footprint, the number of files written, and the error, if any. -/
def writeSkillFiles (ok : String → Bool) (v : String) :
    List String → ToolFs → ToolFs × Nat × Option String
  | [], fs => (fs, 0, none)
  | w :: ws, fs =>
    if ok w then
      let rest := writeSkillFiles ok v ws (fs.writeSkill w v)
      (rest.1, rest.2.1 + 1, rest.2.2)
    else (fs, 0, some ("write failed: skill " ++ w))

/-- Sequential command-file writes, analogous to `writeSkillFiles`. -/
def writeCmdFiles (ok : String → Bool) :
    List String → ToolFs → ToolFs × Nat × Option String
  | [], fs => (fs, 0, none)
  | w :: ws, fs =>
    if ok w then
      let rest := writeCmdFiles ok ws (fs.writeCmd w)
      (rest.1, rest.2.1 + 1, rest.2.2)
    else (fs, 0, some ("write failed: command " ++ w))

/-- Result of reconciling one tool: final footprint, removed skill-directory
count, removed command-file count, write count, and the error caught by
the per-tool `try`/`catch`, if any. -/
structure ReconcileOut where
  fs : ToolFs
  removedSkills : Nat
  removedCmds : Nat
  writes : Nat
  error : Option String

/-- Body of the per-tool update loop (`UpdateCommand.execute` step 10): write
skill files of the desired workflows in template-catalog order when
delivery includes skills, otherwise remove every catalog skill directory;
then write command files when delivery includes commands and the tool has
an adapter, otherwise remove every catalog command file.  A write failure
throws to the per-tool catch; removal failures are swallowed inside the
removal helpers. -/
def reconcileTool (genSkills genCommands : Bool) (desired : List String)
    (v : String) (t : ToolInput) : ReconcileOut :=
  let s :=
    if genSkills then
      writeSkillFiles t.skillWriteOk v (TEMPLATE_ORDER.filter (fun w => desired.contains w)) t.fs
    else (t.fs, 0, none)
  match s.2.2 with
  | some e =>
    { fs := s.1, removedSkills := 0, removedCmds := 0, writes := s.2.1, error := some e }
  | none =>
    let r1 := if !genSkills then removeSkillDirsM t.skillRmOk s.1 else (s.1, 0)
    let c :=
      if genCommands && t.hasAdapter then
        writeCmdFiles t.cmdWriteOk (TEMPLATE_ORDER.filter (fun w => desired.contains w)) r1.1
      else (r1.1, 0, none)
    match c.2.2 with
    | some e =>
      { fs := c.1, removedSkills := r1.2, removedCmds := 0, writes := s.2.1 + c.2.1,
        error := some e }
    | none =>
      let r2 := if !genCommands then removeCommandFilesM t.cmdRmOk t.hasAdapter c.1
                else (c.1, 0)
      { fs := r2.1, removedSkills := r1.2, removedCmds := r2.2, writes := s.2.1 + c.2.1,
        error := none }

/-- Staged form of the filesystem transformation of `reconcileTool` when no
write fails: skill writes, then skill-directory removal, then command
writes, then command-file removal (proved equal to `reconcileTool`'s
result below). -/
def reconcileFsPipeline (genS genC : Bool) (desired : List String) (v : String)
    (t : ToolInput) : ToolFs :=
  let dl := TEMPLATE_ORDER.filter (fun w => desired.contains w)
  let f1 := if genS then (writeSkillFiles t.skillWriteOk v dl t.fs).1 else t.fs
  let f2 := if !genS then (removeSkillDirsM t.skillRmOk f1).1 else f1
  let f3 := if genC && t.hasAdapter then (writeCmdFiles t.cmdWriteOk dl f2).1 else f2
  if !genC then (removeCommandFilesM t.cmdRmOk t.hasAdapter f3).1 else f3

/-- Persisted global configuration as read at the start of a run
(`getGlobalConfig`): optional fields default to `core` profile and `both`
delivery at the use sites in `UpdateCommand.execute` step 5. -/
structure GlobalConfigR where
  profile : Option String
  workflows : Option (List String)
  delivery : Option String

/-- Desired workflow set of a run: profile resolution followed by the
filter to known workflow ids (`desiredWorkflows` in execute step 5). -/
def desiredWorkflowsOf (cfg : GlobalConfigR) : List String :=
  (getProfileWorkflows (cfg.profile.getD "core") cfg.workflows).filter
    (fun w => ALL_WORKFLOWS.contains w)

/-- Skill switch of a run (`shouldGenerateSkills` in execute step 5). -/
def genSkillsOf (cfg : GlobalConfigR) : Bool :=
  shouldGenerateSkills (cfg.delivery.getD "both")

/-- Command switch of a run (`shouldGenerateCommands` in execute step 5). -/
def genCommandsOf (cfg : GlobalConfigR) : Bool :=
  shouldGenerateCommands (cfg.delivery.getD "both")

/-- JavaScript-style deduplication `[...new Set(xs)]`: keeps the first
occurrence of each element, in order. -/
def dedupFirst (xs : List String) : List String :=
  xs.foldl (fun acc x => if acc.contains x then acc else acc ++ [x]) []

/-- Tool ids selected for a non-forced update (`toolsToUpdateSet` in execute
step 7): the union of version-stale tools and tools with profile/delivery
drift, first occurrence kept. -/
def selectedForUpdate (cfg : GlobalConfigR) (tools : List ToolInput)
    (v : String) : List String :=
  let stale := (tools.filter (fun t => statusNeedsUpdate t.fs v)).map (fun t => t.toolId)
  let drifted := (tools.filter (fun t =>
    hasProfileOrDeliveryDrift t (desiredWorkflowsOf cfg) (genSkillsOf cfg)
      (genCommandsOf cfg))).map (fun t => t.toolId)
  dedupFirst (stale ++ drifted)

/-- User-visible console lines produced by an update run (modulo styling). -/
inductive OutputLine
  | noConfiguredTools
  | upToDateMsg (n : Nat)
  | updatePlan (ids : List String)
  | spinnerSucceed (name : String)
  | spinnerFail (name : String)
  | updatedSummary (names : List String)
  | failedSummary (entries : List (String × String))
  | removedCommandsNote (n : Nat)
  | removedSkillsNote (n : Nat)
  | extraWorkflowsNote (n : Nat)
  | migrationNote (n : Nat)
deriving DecidableEq

/-- Whether an output line surfaces a failure to the user (the spinner
failure line or the aggregate `Failed:` summary line). -/
def OutputLine.isFailureLine : OutputLine → Bool
  | OutputLine.spinnerFail _ => true
  | OutputLine.failedSummary _ => true
  | _ => false

/-- Accumulated result of the per-tool update loop. -/
structure LoopOut where
  tools : List ToolInput
  updated : List String
  failed : List (String × String)
  writes : Nat
  removedSkills : Nat
  removedCmds : Nat
  output : List OutputLine

/-- The per-tool update loop (`UpdateCommand.execute` step 10): processes, in
order, each tool that is selected (`sel`) and has a `skillsDir`; a caught
reconcile error records the tool in the failed list and the loop goes on;
a clean reconcile records it as updated.  Each tool's new footprint
replaces its entry in the list, so no tool's reconciliation observes
another's failure. -/
def processTools (genSkills genCommands : Bool) (desired : List String)
    (v : String) (sel : String → Bool) : List ToolInput → LoopOut
  | [] => { tools := [], updated := [], failed := [], writes := 0,
            removedSkills := 0, removedCmds := 0, output := [] }
  | t :: ts =>
    let rest := processTools genSkills genCommands desired v sel ts
    if sel t.toolId && t.hasSkillsDir then
      let r := reconcileTool genSkills genCommands desired v t
      match r.error with
      | none =>
        { tools := { t with fs := r.fs } :: rest.tools,
          updated := t.name :: rest.updated,
          failed := rest.failed,
          writes := r.writes + rest.writes,
          removedSkills := r.removedSkills + rest.removedSkills,
          removedCmds := r.removedCmds + rest.removedCmds,
          output := OutputLine.spinnerSucceed t.name :: rest.output }
      | some e =>
        { tools := { t with fs := r.fs } :: rest.tools,
          updated := rest.updated,
          failed := (t.name, e) :: rest.failed,
          writes := r.writes + rest.writes,
          removedSkills := r.removedSkills + rest.removedSkills,
          removedCmds := r.removedCmds + rest.removedCmds,
          output := OutputLine.spinnerFail t.name :: rest.output }
    else
      { rest with tools := t :: rest.tools }

/-- Union of installed workflows across tools (`scanInstalledWorkflows` in
migration.ts, reached from the update command through its wrapper):
for each tool with a `skillsDir`, each catalog workflow whose `SKILL.md`
exists is collected, first occurrence kept. -/
def scanInstalledWorkflowsM (tools : List ToolInput) : List String :=
  tools.foldl
    (fun acc t =>
      if t.hasSkillsDir then
        MIGRATION_WORKFLOW_TO_SKILL_DIR.foldl
          (fun acc2 p =>
            if (t.fs.skillFile p.1).isSome && !acc2.contains p.1 then acc2 ++ [p.1]
            else acc2)
          acc
      else acc)
    []

/-- Extra installed workflows outside the profile
(`UpdateCommand.displayExtraWorkflowsNote`), reported but never removed. -/
def extraWorkflows (tools : List ToolInput) (profileWorkflows : List String) :
    List String :=
  (scanInstalledWorkflowsM tools).filter (fun w => !profileWorkflows.contains w)

/-- Result of a whole update run. -/
structure RunResult where
  tools : List ToolInput
  updated : List String
  failed : List (String × String)
  writes : Nat
  removedSkills : Nat
  removedCmds : Nat
  upToDate : Bool
  output : List OutputLine

/-- The update run (`UpdateCommand.execute` steps 3 and 5-14) over the
configured tools, after legacy handling and migration: resolve profile
and delivery, probe version status, detect drift, and either take the
up-to-date branch (no tool selected, not forced) or reconcile the
selected tools and print the aggregate summary.  The extra-workflows note
is displayed on both branches. -/
def runUpdate (cfg : GlobalConfigR) (force : Bool) (tools : List ToolInput)
    (v : String) : RunResult :=
  if tools.isEmpty then
    { tools := tools, updated := [], failed := [], writes := 0,
      removedSkills := 0, removedCmds := 0, upToDate := false,
      output := [OutputLine.noConfiguredTools] }
  else
    let desired := desiredWorkflowsOf cfg
    let genS := genSkillsOf cfg
    let genC := genCommandsOf cfg
    let sel := selectedForUpdate cfg tools v
    if !force && sel.isEmpty then
      { tools := tools, updated := [], failed := [], writes := 0,
        removedSkills := 0, removedCmds := 0, upToDate := true,
        output := [OutputLine.upToDateMsg tools.length] ++
          (if (extraWorkflows tools desired).isEmpty then []
           else [OutputLine.extraWorkflowsNote (extraWorkflows tools desired).length]) }
    else
      let selFn : String → Bool := fun id => force || sel.contains id
      let L := processTools genS genC desired v selFn tools
      { tools := L.tools, updated := L.updated, failed := L.failed,
        writes := L.writes, removedSkills := L.removedSkills,
        removedCmds := L.removedCmds, upToDate := false,
        output := [OutputLine.updatePlan (if force then tools.map (fun t => t.toolId) else sel)] ++
          L.output ++
          (if L.updated.isEmpty then [] else [OutputLine.updatedSummary L.updated]) ++
          (if L.failed.isEmpty then [] else [OutputLine.failedSummary L.failed]) ++
          (if L.removedCmds = 0 then [] else [OutputLine.removedCommandsNote L.removedCmds]) ++
          (if L.removedSkills = 0 then [] else [OutputLine.removedSkillsNote L.removedSkills]) ++
          (if (extraWorkflows L.tools desired).isEmpty then []
           else [OutputLine.extraWorkflowsNote (extraWorkflows L.tools desired).length]) }

/-- The raw persisted global-config file as `migrateIfNeeded` sees it:
absent (`existsSync` false, raw config `\x7b\x7d`), present but failing to
parse (`JSON.parse` throws), or parsed with an optional `profile` key and
an optional `workflows` key. -/
inductive ConfigFile
  | missing
  | unreadable
  | parsed (profileKey : Option String) (workflowsKey : Option (List String))
deriving DecidableEq

/-- Outcome of `migrateIfNeeded` (migration.ts): the config file afterwards,
whether `saveGlobalConfig` was called, and the console lines printed. -/
structure MigrateOut where
  config : ConfigFile
  saved : Bool
  output : List OutputLine

/-- One-time migration (`migrateIfNeeded` in migration.ts): an unreadable
config file skips silently; a present `profile` key (any value) is a
no-op; otherwise, when the scan finds installed workflows the config is
saved with `profile = 'custom'` and the discovered workflow list, and two
lines are printed; an empty scan is a no-op. -/
def migrateIfNeededM (cf : ConfigFile) (tools : List ToolInput) : MigrateOut :=
  match cf with
  | ConfigFile.unreadable => { config := cf, saved := false, output := [] }
  | ConfigFile.parsed (some _) _ => { config := cf, saved := false, output := [] }
  | _ =>
    let installed := scanInstalledWorkflowsM tools
    if installed.isEmpty then { config := cf, saved := false, output := [] }
    else
      { config := ConfigFile.parsed (some "custom") (some installed),
        saved := true,
        output := [OutputLine.migrationNote installed.length] }

/-- Validation of the caller-supplied `--profile` override
(`InitCommand.resolveProfileOverride`): absent means no override; the two
valid variants pass through; anything else throws. -/
def resolveProfileOverride (override : Option String) :
    Except String (Option String) :=
  match override with
  | none => Except.ok none
  | some s =>
    if s = "core" || s = "custom" then Except.ok (some s)
    else Except.error ("Invalid profile " ++ s)

/-- Filesystem or config mutations an init run can perform, in the order
`InitCommand.execute` can reach them. -/
inductive InitMutation
  | legacyCleanup
  | configMigration
  | structureCreated
  | artifactsGenerated
deriving DecidableEq

/-- How an init run ends: normally, by `process.exit`, or by a thrown error
(non-zero exit at the CLI boundary). -/
inductive InitStop
  | ok
  | exited (code : Nat)
  | threw (msg : String)
deriving DecidableEq

/-- Mutations performed and stop condition of an init run. -/
structure InitTrace where
  mutations : List InitMutation
  stop : InitStop
deriving DecidableEq

/-- Inputs determining the control flow of `InitCommand.execute`. -/
structure InitParams where
  permOk : Bool
  hasLegacy : Bool
  force : Bool
  canPrompt : Bool
  confirmCleanup : Bool
  extendMode : Bool
  configFile : ConfigFile
  tools : List ToolInput
  profileOverride : Option String

/-- Control-flow skeleton of `InitCommand.execute`: validation (write
permission), legacy detection and cleanup (which mutates under `--force`
or interactive confirmation, exits 1 in non-interactive mode without
`--force`, exits 0 on a declined prompt), one-time config migration when
extending an existing project, and only then the `--profile` override
validation of step `resolveProfileOverride`; the remaining work
(directory structure, skill and command generation, config creation) is
coarsened to two mutations at the end. -/
def initRunModel (p : InitParams) : InitTrace :=
  if !p.permOk then
    { mutations := [], stop := InitStop.threw "Insufficient permissions" }
  else
    let afterLegacy : List InitMutation × Option InitStop :=
      if p.hasLegacy then
        if p.force then ([InitMutation.legacyCleanup], none)
        else if !p.canPrompt then ([], some (InitStop.exited 1))
        else if p.confirmCleanup then ([InitMutation.legacyCleanup], none)
        else ([], some (InitStop.exited 0))
      else ([], none)
    match afterLegacy with
    | (muts, some stop) => { mutations := muts, stop := stop }
    | (muts, none) =>
      let muts2 :=
        if p.extendMode && (migrateIfNeededM p.configFile p.tools).saved then
          muts ++ [InitMutation.configMigration]
        else muts
      match resolveProfileOverride p.profileOverride with
      | Except.error e => { mutations := muts2, stop := InitStop.threw e }
      | Except.ok _ =>
        { mutations := muts2 ++ [InitMutation.structureCreated, InitMutation.artifactsGenerated],
          stop := InitStop.ok }

/-! ### Concrete fixtures used to evaluate the model on specific inputs -/

/-- Configuration with a custom profile and an empty workflow list. -/
def cfgEmptyCustom : GlobalConfigR :=
  { profile := some "custom", workflows := some [], delivery := some "both" }

/-- Configuration with a custom profile of the single workflow `explore`. -/
def cfgOnlyExplore : GlobalConfigR :=
  { profile := some "custom", workflows := some ["explore"], delivery := some "both" }

/-- Configuration with a custom profile of workflows `explore`, `new`, `apply`. -/
def cfgThreeWorkflows : GlobalConfigR :=
  { profile := some "custom", workflows := some ["explore", "new", "apply"],
    delivery := some "both" }

/-- Configuration with the core profile and skills-only delivery. -/
def cfgCoreSkills : GlobalConfigR :=
  { profile := some "core", workflows := none, delivery := some "skills" }

/-- Configuration with the core profile and commands-only delivery. -/
def cfgCoreCommands : GlobalConfigR :=
  { profile := some "core", workflows := none, delivery := some "commands" }

/-- A tool whose only managed artifact is an `explore` skill file embedding
the stale marker `0.1.0`; every filesystem operation succeeds. -/
def staleExploreTool : ToolInput :=
  { toolId := "claude", name := "Claude Code", hasSkillsDir := true, hasAdapter := true,
    fs := { skillDir := fun u => u == "explore",
            skillFile := fun u => if u == "explore" then some (some "0.1.0") else none,
            cmdFile := fun _ => false },
    skillWriteOk := fun _ => true, cmdWriteOk := fun _ => true,
    skillRmOk := fun _ => true, cmdRmOk := fun _ => true }

/-- A tool fully synced with `cfgOnlyExplore` at version `1.0.0`: the
`explore` skill file embeds `1.0.0` and the `explore` command file exists. -/
def syncedExploreTool : ToolInput :=
  { toolId := "claude", name := "Claude Code", hasSkillsDir := true, hasAdapter := true,
    fs := { skillDir := fun u => u == "explore",
            skillFile := fun u => if u == "explore" then some (some "1.0.0") else none,
            cmdFile := fun u => u == "explore" },
    skillWriteOk := fun _ => true, cmdWriteOk := fun _ => true,
    skillRmOk := fun _ => true, cmdRmOk := fun _ => true }

/-- A tool with one stray `explore` command file whose `unlink` always
fails; all writes succeed. -/
def cmdRmFailTool : ToolInput :=
  { toolId := "claude", name := "Claude Code", hasSkillsDir := true, hasAdapter := true,
    fs := { skillDir := fun _ => false,
            skillFile := fun _ => none,
            cmdFile := fun u => u == "explore" },
    skillWriteOk := fun _ => true, cmdWriteOk := fun _ => true,
    skillRmOk := fun _ => true, cmdRmOk := fun _ => false }

/-- A tool with an up-to-date `explore` skill whose skill-directory `rm`
always fails; all writes succeed. -/
def skillRmFailTool : ToolInput :=
  { toolId := "claude", name := "Claude Code", hasSkillsDir := true, hasAdapter := true,
    fs := { skillDir := fun u => u == "explore",
            skillFile := fun u => if u == "explore" then some (some "1.0.0") else none,
            cmdFile := fun _ => false },
    skillWriteOk := fun _ => true, cmdWriteOk := fun _ => true,
    skillRmOk := fun _ => false, cmdRmOk := fun _ => true }

/-- A tool with an empty footprint whose skill-file writes always fail. -/
def skillWriteFailTool : ToolInput :=
  { toolId := "claude", name := "Claude Code", hasSkillsDir := true, hasAdapter := true,
    fs := { skillDir := fun _ => false, skillFile := fun _ => none,
            cmdFile := fun _ => false },
    skillWriteOk := fun _ => false, cmdWriteOk := fun _ => true,
    skillRmOk := fun _ => true, cmdRmOk := fun _ => true }

/-- Init parameters of a forced run on a project with legacy artifacts and
the invalid profile override `fast`. -/
def initParamsLegacyBadProfile : InitParams :=
  { permOk := true, hasLegacy := true, force := true,
    canPrompt := false, confirmCleanup := false, extendMode := false,
    configFile := ConfigFile.missing, tools := [],
    profileOverride := some "fast" }

/-- Init parameters of a clean first-time run with the invalid profile
override `fast`. -/
def initParamsCleanBadProfile : InitParams :=
  { permOk := true, hasLegacy := false, force := false,
    canPrompt := true, confirmCleanup := true, extendMode := false,
    configFile := ConfigFile.missing, tools := [],
    profileOverride := some "fast" }

/-! ### Helper lemmas about the catalog and list utilities -/

theorem mem_foldl_dedup (l : List String) :
    ∀ (acc : List String) (x : String),
      x ∈ l.foldl (fun acc y => if acc.contains y then acc else acc ++ [y]) acc ↔
        x ∈ acc ∨ x ∈ l := by
  induction l with
  | nil => simp
  | cons a l ih =>
    intro acc x
    simp only [List.foldl_cons, ih, List.mem_cons]
    by_cases h : acc.contains a = true
    · rw [if_pos h]
      have ha : a ∈ acc := by simpa using h
      constructor
      · tauto
      · rintro (hx | rfl | hx)
        · exact Or.inl hx
        · exact Or.inl ha
        · exact Or.inr hx
    · rw [if_neg h]
      simp only [List.mem_append, List.mem_singleton]
      tauto

theorem mem_dedupFirst {x : String} {l : List String} :
    x ∈ dedupFirst l ↔ x ∈ l := by
  unfold dedupFirst
  rw [mem_foldl_dedup]
  simp

theorem dedupFirst_eq_nil_iff {l : List String} : dedupFirst l = [] ↔ l = [] := by
  constructor
  · intro h
    by_contra hne
    obtain ⟨x, hx⟩ := List.exists_mem_of_ne_nil l hne
    have : x ∈ dedupFirst l := mem_dedupFirst.mpr hx
    simp [h] at this
  · intro h; subst h; rfl

theorem lookup_isSome_iff (w : String) :
    (lookupSkillDir WORKFLOW_TO_SKILL_DIR w).isSome = true ↔ w ∈ TEMPLATE_ORDER := by
  simp [lookupSkillDir, WORKFLOW_TO_SKILL_DIR, TEMPLATE_ORDER, List.find?]
  by_cases h1 : "explore" = w <;> by_cases h2 : "new" = w <;>
    by_cases h3 : "continue" = w <;> by_cases h4 : "apply" = w <;>
    by_cases h5 : "archive" = w <;> by_cases h6 : "verify" = w <;>
    by_cases h7 : "propose" = w <;>
    simp_all <;> tauto

theorem mem_ALL_iff_TEMPLATE (w : String) :
    w ∈ ALL_WORKFLOWS ↔ w ∈ TEMPLATE_ORDER := by
  simp [ALL_WORKFLOWS, TEMPLATE_ORDER]
  tauto

theorem lookup_isSome_of_mem_ALL {w : String} (h : w ∈ ALL_WORKFLOWS) :
    (lookupSkillDir WORKFLOW_TO_SKILL_DIR w).isSome = true :=
  (lookup_isSome_iff w).mpr ((mem_ALL_iff_TEMPLATE w).mp h)

/-! ### Lemmas about the write phases -/

theorem writeSkillFiles_allOk (ok : String → Bool) (v : String) :
    ∀ (ws : List String) (fs : ToolFs), (∀ w ∈ ws, ok w = true) →
      (writeSkillFiles ok v ws fs).2.2 = none ∧
      (∀ w ∈ ws, (writeSkillFiles ok v ws fs).1.skillFile w = some (some v)) ∧
      (∀ u, u ∉ ws → (writeSkillFiles ok v ws fs).1.skillFile u = fs.skillFile u ∧
        (writeSkillFiles ok v ws fs).1.skillDir u = fs.skillDir u)
  | [], fs, _ => by simp [writeSkillFiles]
  | w :: ws, fs, h => by
    have hw : ok w = true := h w (List.mem_cons_self w ws)
    have htail : ∀ u ∈ ws, ok u = true := fun u hu => h u (List.mem_cons_of_mem _ hu)
    have ih := writeSkillFiles_allOk ok v ws (fs.writeSkill w v) htail
    simp only [writeSkillFiles, hw, if_true]
    refine ⟨ih.1, ?_, ?_⟩
    · intro u hu
      rcases List.mem_cons.mp hu with rfl | hu
      · by_cases hmem : u ∈ ws
        · exact ih.2.1 u hmem
        · have := (ih.2.2 u hmem).1
          rw [this]
          simp [ToolFs.writeSkill]
      · exact ih.2.1 u hu
    · intro u hu
      have hne : u ≠ w := fun e => hu (e ▸ List.mem_cons_self w ws)
      have hnotin : u ∉ ws := fun e => hu (List.mem_cons_of_mem _ e)
      have := ih.2.2 u hnotin
      refine ⟨?_, ?_⟩
      · rw [this.1]; simp [ToolFs.writeSkill, hne]
      · rw [this.2]; simp [ToolFs.writeSkill, hne]

theorem writeSkillFiles_cmd_unchanged (ok : String → Bool) (v : String) :
    ∀ (ws : List String) (fs : ToolFs),
      (writeSkillFiles ok v ws fs).1.cmdFile = fs.cmdFile
  | [], fs => rfl
  | w :: ws, fs => by
    by_cases hw : ok w = true
    · simp only [writeSkillFiles, hw, if_true]
      rw [writeSkillFiles_cmd_unchanged ok v ws]
      rfl
    · simp only [writeSkillFiles, hw]
      simp

theorem writeSkillFiles_skillFile_mono (ok : String → Bool) (v : String) :
    ∀ (ws : List String) (fs : ToolFs) (u : String),
      (writeSkillFiles ok v ws fs).1.skillFile u = fs.skillFile u ∨
      (writeSkillFiles ok v ws fs).1.skillFile u = some (some v)
  | [], fs, u => Or.inl rfl
  | w :: ws, fs, u => by
    by_cases hw : ok w = true
    · simp only [writeSkillFiles, hw, if_true]
      rcases writeSkillFiles_skillFile_mono ok v ws (fs.writeSkill w v) u with h | h
      · rw [h]
        by_cases he : u = w
        · subst he; right; simp [ToolFs.writeSkill]
        · left; simp [ToolFs.writeSkill, he]
      · right; exact h
    · simp only [writeSkillFiles, hw]
      left; simp

theorem writeSkillFiles_takeWhile (ok : String → Bool) (v : String) :
    ∀ (ws : List String) (fs : ToolFs) (w : String), w ∈ ws.takeWhile ok →
      (writeSkillFiles ok v ws fs).1.skillFile w = some (some v)
  | [], _, w, h => by simp [List.takeWhile] at h
  | x :: ws, fs, w, h => by
    by_cases hx : ok x = true
    · simp only [writeSkillFiles, hx, if_true]
      rw [List.takeWhile_cons] at h
      simp only [hx, if_true, List.mem_cons] at h
      rcases h with rfl | h
      · rcases writeSkillFiles_skillFile_mono ok v ws (fs.writeSkill w v) w with h2 | h2
        · rw [h2]; simp [ToolFs.writeSkill]
        · exact h2
      · exact writeSkillFiles_takeWhile ok v ws _ w h
    · rw [List.takeWhile_cons] at h
      simp [hx] at h

theorem writeCmdFiles_allOk (ok : String → Bool) :
    ∀ (ws : List String) (fs : ToolFs), (∀ w ∈ ws, ok w = true) →
      (writeCmdFiles ok ws fs).2.2 = none ∧
      (∀ w ∈ ws, (writeCmdFiles ok ws fs).1.cmdFile w = true) ∧
      (∀ u, u ∉ ws → (writeCmdFiles ok ws fs).1.cmdFile u = fs.cmdFile u)
  | [], fs, _ => by simp [writeCmdFiles]
  | w :: ws, fs, h => by
    have hw : ok w = true := h w (List.mem_cons_self w ws)
    have htail : ∀ u ∈ ws, ok u = true := fun u hu => h u (List.mem_cons_of_mem _ hu)
    have ih := writeCmdFiles_allOk ok ws (fs.writeCmd w) htail
    simp only [writeCmdFiles, hw, if_true]
    refine ⟨ih.1, ?_, ?_⟩
    · intro u hu
      rcases List.mem_cons.mp hu with rfl | hu
      · by_cases hmem : u ∈ ws
        · exact ih.2.1 u hmem
        · rw [ih.2.2 u hmem]
          simp [ToolFs.writeCmd]
      · exact ih.2.1 u hu
    · intro u hu
      have hne : u ≠ w := fun e => hu (e ▸ List.mem_cons_self w ws)
      have hnotin : u ∉ ws := fun e => hu (List.mem_cons_of_mem _ e)
      rw [ih.2.2 u hnotin]
      simp [ToolFs.writeCmd, hne]

theorem writeCmdFiles_skill_unchanged (ok : String → Bool) :
    ∀ (ws : List String) (fs : ToolFs),
      (writeCmdFiles ok ws fs).1.skillFile = fs.skillFile ∧
      (writeCmdFiles ok ws fs).1.skillDir = fs.skillDir
  | [], fs => ⟨rfl, rfl⟩
  | w :: ws, fs => by
    by_cases hw : ok w = true
    · simp only [writeCmdFiles, hw, if_true]
      have := writeCmdFiles_skill_unchanged ok ws (fs.writeCmd w)
      exact ⟨this.1, this.2⟩
    · simp only [writeCmdFiles, hw]
      simp

/-! ### Lemmas about the removal phases -/

theorem removeSkillStep_dir_false (rmOk : String → Bool) (acc : ToolFs × Nat)
    (w u : String) (h : acc.1.skillDir u = false) :
    ((removeSkillStep rmOk acc w).1.skillDir u) = false := by
  unfold removeSkillStep
  rcases lookupSkillDir WORKFLOW_TO_SKILL_DIR w with _ | d
  · exact h
  · by_cases hd : acc.1.skillDir w = true
    · by_cases hok : rmOk w = true
      · simp only [hd, if_true, hok]
        by_cases he : u = w
        · subst he; simp [ToolFs.rmSkillDir]
        · simp [ToolFs.rmSkillDir, he, h]
      · simp [hd, hok, h]
    · simp [hd, h]

theorem removeSkillFold_dir_false (rmOk : String → Bool) :
    ∀ (l : List String) (acc : ToolFs × Nat) (u : String),
      acc.1.skillDir u = false →
      ((l.foldl (removeSkillStep rmOk) acc).1.skillDir u) = false
  | [], _, _, h => h
  | w :: l, acc, u, h =>
    removeSkillFold_dir_false rmOk l _ u (removeSkillStep_dir_false rmOk acc w u h)

theorem removeSkillFold_removes (rmOk : String → Bool) :
    ∀ (l : List String) (acc : ToolFs × Nat) (u : String),
      rmOk u = true → u ∈ l →
      (lookupSkillDir WORKFLOW_TO_SKILL_DIR u).isSome = true →
      ((l.foldl (removeSkillStep rmOk) acc).1.skillDir u) = false
  | [], _, _, _, hmem, _ => by simp at hmem
  | w :: l, acc, u, hok, hmem, hlook => by
    rcases List.mem_cons.mp hmem with rfl | hmem
    · rw [List.foldl_cons]
      apply removeSkillFold_dir_false
      unfold removeSkillStep
      rcases hl : lookupSkillDir WORKFLOW_TO_SKILL_DIR u with _ | d
      · rw [hl] at hlook; simp at hlook
      · by_cases hd : acc.1.skillDir u = true
        · simp [hd, hok, ToolFs.rmSkillDir]
        · simp only [hd, if_false]
          simpa using hd
    · exact removeSkillFold_removes rmOk l _ u hok hmem hlook

theorem removeSkillFold_noop (rmOk : String → Bool) :
    ∀ (l : List String) (acc : ToolFs × Nat),
      (∀ w ∈ l, acc.1.skillDir w = false) →
      l.foldl (removeSkillStep rmOk) acc = acc
  | [], _, _ => rfl
  | w :: l, acc, h => by
    have hstep : removeSkillStep rmOk acc w = acc := by
      unfold removeSkillStep
      rcases lookupSkillDir WORKFLOW_TO_SKILL_DIR w with _ | d
      · rfl
      · simp [h w (List.mem_cons_self w l)]
    rw [List.foldl_cons, hstep]
    exact removeSkillFold_noop rmOk l acc (fun u hu => h u (List.mem_cons_of_mem _ hu))

theorem removeSkillStep_cmd_unchanged (rmOk : String → Bool) (acc : ToolFs × Nat)
    (w : String) : (removeSkillStep rmOk acc w).1.cmdFile = acc.1.cmdFile := by
  unfold removeSkillStep
  rcases lookupSkillDir WORKFLOW_TO_SKILL_DIR w with _ | d
  · rfl
  · by_cases hd : acc.1.skillDir w = true
    · by_cases hok : rmOk w = true
      · simp [hd, hok, ToolFs.rmSkillDir]
      · simp [hd, hok]
    · simp [hd]

theorem removeSkillFold_cmd_unchanged (rmOk : String → Bool) :
    ∀ (l : List String) (acc : ToolFs × Nat),
      (l.foldl (removeSkillStep rmOk) acc).1.cmdFile = acc.1.cmdFile
  | [], _ => rfl
  | w :: l, acc => by
    rw [List.foldl_cons, removeSkillFold_cmd_unchanged rmOk l]
    exact removeSkillStep_cmd_unchanged rmOk acc w

theorem removeCmdStep_file_false (rmOk : String → Bool) (acc : ToolFs × Nat)
    (w u : String) (h : acc.1.cmdFile u = false) :
    ((removeCmdStep rmOk acc w).1.cmdFile u) = false := by
  unfold removeCmdStep
  by_cases hd : acc.1.cmdFile w = true
  · by_cases hok : rmOk w = true
    · simp only [hd, if_true, hok]
      by_cases he : u = w
      · subst he; simp [ToolFs.rmCmdFile]
      · simp [ToolFs.rmCmdFile, he, h]
    · simp [hd, hok, h]
  · simp [hd, h]

theorem removeCmdFold_file_false (rmOk : String → Bool) :
    ∀ (l : List String) (acc : ToolFs × Nat) (u : String),
      acc.1.cmdFile u = false →
      ((l.foldl (removeCmdStep rmOk) acc).1.cmdFile u) = false
  | [], _, _, h => h
  | w :: l, acc, u, h =>
    removeCmdFold_file_false rmOk l _ u (removeCmdStep_file_false rmOk acc w u h)

theorem removeCmdFold_removes (rmOk : String → Bool) :
    ∀ (l : List String) (acc : ToolFs × Nat) (u : String),
      rmOk u = true → u ∈ l →
      ((l.foldl (removeCmdStep rmOk) acc).1.cmdFile u) = false
  | [], _, _, _, hmem => by simp at hmem
  | w :: l, acc, u, hok, hmem => by
    rcases List.mem_cons.mp hmem with rfl | hmem
    · rw [List.foldl_cons]
      apply removeCmdFold_file_false
      unfold removeCmdStep
      by_cases hd : acc.1.cmdFile u = true
      · simp [hd, hok, ToolFs.rmCmdFile]
      · simp only [hd, if_false]
        simpa using hd
    · exact removeCmdFold_removes rmOk l _ u hok hmem

theorem removeCmdFold_noop (rmOk : String → Bool) :
    ∀ (l : List String) (acc : ToolFs × Nat),
      (∀ w ∈ l, acc.1.cmdFile w = false) →
      l.foldl (removeCmdStep rmOk) acc = acc
  | [], _, _ => rfl
  | w :: l, acc, h => by
    have hstep : removeCmdStep rmOk acc w = acc := by
      unfold removeCmdStep
      simp [h w (List.mem_cons_self w l)]
    rw [List.foldl_cons, hstep]
    exact removeCmdFold_noop rmOk l acc (fun u hu => h u (List.mem_cons_of_mem _ hu))

theorem removeCmdStep_skill_unchanged (rmOk : String → Bool) (acc : ToolFs × Nat)
    (w : String) : (removeCmdStep rmOk acc w).1.skillFile = acc.1.skillFile ∧
      (removeCmdStep rmOk acc w).1.skillDir = acc.1.skillDir := by
  unfold removeCmdStep
  by_cases hd : acc.1.cmdFile w = true
  · by_cases hok : rmOk w = true
    · simp [hd, hok, ToolFs.rmCmdFile]
    · simp [hd, hok]
  · simp [hd]

theorem removeCmdFold_skill_unchanged (rmOk : String → Bool) :
    ∀ (l : List String) (acc : ToolFs × Nat),
      (l.foldl (removeCmdStep rmOk) acc).1.skillFile = acc.1.skillFile ∧
      (l.foldl (removeCmdStep rmOk) acc).1.skillDir = acc.1.skillDir
  | [], _ => ⟨rfl, rfl⟩
  | w :: l, acc => by
    rw [List.foldl_cons]
    have h1 := removeCmdFold_skill_unchanged rmOk l (removeCmdStep rmOk acc w)
    have h2 := removeCmdStep_skill_unchanged rmOk acc w
    exact ⟨h1.1.trans h2.1, h1.2.trans h2.2⟩

theorem mem_filter_template {w : String} (desired : List String)
    (hd : w ∈ desired) (ht : w ∈ TEMPLATE_ORDER) :
    w ∈ TEMPLATE_ORDER.filter (fun u => desired.contains u) := by
  rw [List.mem_filter]
  exact ⟨ht, by simpa using hd⟩

theorem pipeline_skillFile_desired (genC : Bool) (desired : List String)
    (v : String) (t : ToolInput) (hS : ∀ w, t.skillWriteOk w = true)
    {w : String} (hd : w ∈ desired) (ht : w ∈ TEMPLATE_ORDER) :
    (reconcileFsPipeline true genC desired v t).skillFile w = some (some v) := by
  unfold reconcileFsPipeline
  have hw := (writeSkillFiles_allOk t.skillWriteOk v
      (TEMPLATE_ORDER.filter (fun u => desired.contains u)) t.fs
      (fun u _ => hS u)).2.1 w (mem_filter_template desired hd ht)
  cases hgc : genC <;> cases ha : t.hasAdapter <;>
    simp_all [removeCommandFilesM,
      (removeCmdFold_skill_unchanged t.cmdRmOk ALL_WORKFLOWS _).1,
      (writeCmdFiles_skill_unchanged t.cmdWriteOk _ _).1]

theorem pipeline_skillDir_removed (genC : Bool) (desired : List String)
    (v : String) (t : ToolInput) (hR : ∀ w, t.skillRmOk w = true)
    {w : String} (hw : w ∈ ALL_WORKFLOWS) :
    (reconcileFsPipeline false genC desired v t).skillDir w = false := by
  unfold reconcileFsPipeline
  have hrm : (removeSkillDirsM t.skillRmOk t.fs).1.skillDir w = false :=
    removeSkillFold_removes t.skillRmOk ALL_WORKFLOWS (t.fs, 0) w (hR w) hw
      (lookup_isSome_of_mem_ALL hw)
  cases hgc : genC <;> cases ha : t.hasAdapter <;>
    simp_all [removeCommandFilesM,
      (removeCmdFold_skill_unchanged t.cmdRmOk ALL_WORKFLOWS _).2,
      (writeCmdFiles_skill_unchanged t.cmdWriteOk _ _).2]

theorem pipeline_cmd_written (genS : Bool) (desired : List String)
    (v : String) (t : ToolInput) (hC : ∀ w, t.cmdWriteOk w = true)
    (ha : t.hasAdapter = true)
    {w : String} (hd : w ∈ desired) (ht : w ∈ TEMPLATE_ORDER) :
    (reconcileFsPipeline genS true desired v t).cmdFile w = true := by
  unfold reconcileFsPipeline
  have hw := fun fs => (writeCmdFiles_allOk t.cmdWriteOk
      (TEMPLATE_ORDER.filter (fun u => desired.contains u)) fs
      (fun u _ => hC u)).2.1 w (mem_filter_template desired hd ht)
  cases hgs : genS <;> simp_all [ha]

theorem pipeline_cmd_removed (genS : Bool) (desired : List String)
    (v : String) (t : ToolInput) (hR : ∀ w, t.cmdRmOk w = true)
    (ha : t.hasAdapter = true)
    {w : String} (hw : w ∈ ALL_WORKFLOWS) :
    (reconcileFsPipeline genS false desired v t).cmdFile w = false := by
  unfold reconcileFsPipeline
  have hrm : ∀ fs : ToolFs,
      (ALL_WORKFLOWS.foldl (removeCmdStep t.cmdRmOk) (fs, 0)).1.cmdFile w = false :=
    fun fs => removeCmdFold_removes t.cmdRmOk ALL_WORKFLOWS (fs, 0) w (hR w) hw
  cases hgs : genS <;> simp_all [removeCommandFilesM, ha]

theorem drift_false_after_pipeline (genS genC : Bool) (desired : List String)
    (v : String) (t : ToolInput) (hOk : t.allOpsOk)
    (hsub : ∀ w ∈ desired, w ∈ ALL_WORKFLOWS) :
    hasProfileOrDeliveryDrift { t with fs := reconcileFsPipeline genS genC desired v t }
      desired genS genC = false := by
  obtain ⟨hS, hC, hRs, hRc⟩ := hOk
  unfold hasProfileOrDeliveryDrift
  cases hdir : t.hasSkillsDir
  · simp [hdir]
  · simp only [hdir, Bool.not_true, if_false]
    have hskill :
        (if genS then
          desired.any (fun w =>
            (lookupSkillDir WORKFLOW_TO_SKILL_DIR w).isSome &&
              ((reconcileFsPipeline genS genC desired v t).skillFile w).isNone)
        else
          ALL_WORKFLOWS.any (fun w =>
            (lookupSkillDir WORKFLOW_TO_SKILL_DIR w).isSome &&
              (reconcileFsPipeline genS genC desired v t).skillDir w)) = false := by
      cases hgs : genS
      · rw [if_neg (by simp)]
        rw [List.any_eq_false]
        intro w hw
        rw [pipeline_skillDir_removed genC desired v t hRs hw]
        simp
      · rw [if_pos rfl]
        rw [List.any_eq_false]
        intro w hw
        by_cases hl : (lookupSkillDir WORKFLOW_TO_SKILL_DIR w).isSome = true
        · rw [pipeline_skillFile_desired genC desired v t hS hw ((lookup_isSome_iff w).mp hl)]
          simp
        · simp only [Bool.and_eq_true, not_and]
          intro hcontra
          exact absurd hcontra hl
    have hcmd :
        (if genC && t.hasAdapter then
          desired.any (fun w => !(reconcileFsPipeline genS genC desired v t).cmdFile w)
        else if !genC && t.hasAdapter then
          ALL_WORKFLOWS.any (fun w => (reconcileFsPipeline genS genC desired v t).cmdFile w)
        else false) = false := by
      cases hgc : genC <;> cases ha : t.hasAdapter
      · rw [if_neg (by simp), if_neg (by simp [ha])]
      · rw [if_neg (by simp), if_pos (by simp [ha])]
        rw [List.any_eq_false]
        intro w hw
        rw [pipeline_cmd_removed genS desired v t hRc ha hw]
        simp
      · rw [if_neg (by simp [ha]), if_neg (by simp [ha])]
      · rw [if_pos (by simp [ha])]
        rw [List.any_eq_false]
        intro w hw
        rw [pipeline_cmd_written genS desired v t hC ha hw
          ((mem_ALL_iff_TEMPLATE w).mp (hsub w hw))]
        simp
    rw [hskill, hcmd]
    simp

theorem reconcileTool_error_none (genS genC : Bool) (desired : List String)
    (v : String) (t : ToolInput)
    (hS : ∀ w, t.skillWriteOk w = true) (hC : ∀ w, t.cmdWriteOk w = true) :
    (reconcileTool genS genC desired v t).error = none := by
  have hs1 : ∀ (ws : List String) (fs : ToolFs),
      (writeSkillFiles t.skillWriteOk v ws fs).2.2 = none :=
    fun ws fs => (writeSkillFiles_allOk t.skillWriteOk v ws fs (fun w _ => hS w)).1
  have hc1 : ∀ (ws : List String) (fs : ToolFs),
      (writeCmdFiles t.cmdWriteOk ws fs).2.2 = none :=
    fun ws fs => (writeCmdFiles_allOk t.cmdWriteOk ws fs (fun w _ => hC w)).1
  unfold reconcileTool
  cases genS <;> cases genC <;> cases ha : t.hasAdapter <;>
    simp_all [hs1, hc1, ha]

theorem reconcileTool_fs_eq (genS genC : Bool) (desired : List String)
    (v : String) (t : ToolInput)
    (hS : ∀ w, t.skillWriteOk w = true) (hC : ∀ w, t.cmdWriteOk w = true) :
    (reconcileTool genS genC desired v t).fs =
      reconcileFsPipeline genS genC desired v t := by
  have hs1 : ∀ (ws : List String) (fs : ToolFs),
      (writeSkillFiles t.skillWriteOk v ws fs).2.2 = none :=
    fun ws fs => (writeSkillFiles_allOk t.skillWriteOk v ws fs (fun w _ => hS w)).1
  have hc1 : ∀ (ws : List String) (fs : ToolFs),
      (writeCmdFiles t.cmdWriteOk ws fs).2.2 = none :=
    fun ws fs => (writeCmdFiles_allOk t.cmdWriteOk ws fs (fun w _ => hC w)).1
  unfold reconcileTool reconcileFsPipeline
  cases genS <;> cases genC <;> cases ha : t.hasAdapter <;>
    simp_all [hs1, hc1, ha]

/-! ### Lemmas about selection and the per-tool loop -/

theorem mem_selected_of_stale {cfg : GlobalConfigR} {tools : List ToolInput}
    {v : String} {t : ToolInput} (ht : t ∈ tools)
    (hstale : statusNeedsUpdate t.fs v = true) :
    t.toolId ∈ selectedForUpdate cfg tools v := by
  unfold selectedForUpdate
  rw [mem_dedupFirst]
  apply List.mem_append_left
  exact List.mem_map_of_mem _ (List.mem_filter.mpr ⟨ht, hstale⟩)

theorem mem_selected_of_drift {cfg : GlobalConfigR} {tools : List ToolInput}
    {v : String} {t : ToolInput} (ht : t ∈ tools)
    (hdrift : hasProfileOrDeliveryDrift t (desiredWorkflowsOf cfg) (genSkillsOf cfg)
      (genCommandsOf cfg) = true) :
    t.toolId ∈ selectedForUpdate cfg tools v := by
  unfold selectedForUpdate
  rw [mem_dedupFirst]
  apply List.mem_append_right
  exact List.mem_map_of_mem _ (List.mem_filter.mpr ⟨ht, hdrift⟩)

theorem selected_eq_nil_iff {cfg : GlobalConfigR} {tools : List ToolInput}
    {v : String} :
    selectedForUpdate cfg tools v = [] ↔
      (∀ t ∈ tools, statusNeedsUpdate t.fs v = false ∧
        hasProfileOrDeliveryDrift t (desiredWorkflowsOf cfg) (genSkillsOf cfg)
          (genCommandsOf cfg) = false) := by
  unfold selectedForUpdate
  rw [dedupFirst_eq_nil_iff, List.append_eq_nil, List.map_eq_nil_iff,
    List.map_eq_nil_iff, List.filter_eq_nil_iff, List.filter_eq_nil_iff]
  constructor
  · rintro ⟨h1, h2⟩ t ht
    exact ⟨Bool.not_eq_true _ ▸ Bool.eq_false_iff.mpr (fun hc => h1 t ht (by simp [hc])),
      Bool.eq_false_iff.mpr (fun hc => h2 t ht (by simp [hc]))⟩
  · intro h
    exact ⟨fun t ht hc => by simp [(h t ht).1] at hc,
      fun t ht hc => by simp [(h t ht).2] at hc⟩


theorem processTools_tools_eq (genS genC : Bool) (desired : List String)
    (v : String) (sel : String → Bool) :
    ∀ tools : List ToolInput,
      (processTools genS genC desired v sel tools).tools =
        tools.map (fun t =>
          if sel t.toolId && t.hasSkillsDir then
            { t with fs := (reconcileTool genS genC desired v t).fs }
          else t)
  | [] => rfl
  | t :: ts => by
    have ih := processTools_tools_eq genS genC desired v sel ts
    by_cases hsel : (sel t.toolId && t.hasSkillsDir) = true
    · have hp := (Bool.and_eq_true _ _).mp hsel
      rcases herr : (reconcileTool genS genC desired v t).error with _ | e <;>
        simp [processTools, hsel, herr, ih, hp.1, hp.2]
    · have hn : ¬(sel t.toolId = true ∧ t.hasSkillsDir = true) := by
        simpa [Bool.and_eq_true] using hsel
      simp [processTools, hsel, ih, hn]

theorem processTools_failed_eq (genS genC : Bool) (desired : List String)
    (v : String) (sel : String → Bool) :
    ∀ tools : List ToolInput,
      (processTools genS genC desired v sel tools).failed =
        tools.filterMap (fun t =>
          if sel t.toolId && t.hasSkillsDir then
            ((reconcileTool genS genC desired v t).error).map (fun e => (t.name, e))
          else none)
  | [] => rfl
  | t :: ts => by
    have ih := processTools_failed_eq genS genC desired v sel ts
    by_cases hsel : (sel t.toolId && t.hasSkillsDir) = true
    · have hp := (Bool.and_eq_true _ _).mp hsel
      rcases herr : (reconcileTool genS genC desired v t).error with _ | e <;>
        simp [processTools, hsel, herr, ih, List.filterMap_cons, hp.1, hp.2]
    · have hn : ¬(sel t.toolId = true ∧ t.hasSkillsDir = true) := by
        simpa [Bool.and_eq_true] using hsel
      simp [processTools, hsel, ih, List.filterMap_cons, hn]

theorem processTools_updated_eq (genS genC : Bool) (desired : List String)
    (v : String) (sel : String → Bool) :
    ∀ tools : List ToolInput,
      (processTools genS genC desired v sel tools).updated =
        tools.filterMap (fun t =>
          if sel t.toolId && t.hasSkillsDir then
            (match (reconcileTool genS genC desired v t).error with
             | none => some t.name
             | some _ => none)
          else none)
  | [] => rfl
  | t :: ts => by
    have ih := processTools_updated_eq genS genC desired v sel ts
    by_cases hsel : (sel t.toolId && t.hasSkillsDir) = true
    · have hp := (Bool.and_eq_true _ _).mp hsel
      rcases herr : (reconcileTool genS genC desired v t).error with _ | e <;>
        simp [processTools, hsel, herr, ih, List.filterMap_cons, hp.1, hp.2]
    · have hn : ¬(sel t.toolId = true ∧ t.hasSkillsDir = true) := by
        simpa [Bool.and_eq_true] using hsel
      simp [processTools, hsel, ih, List.filterMap_cons, hn]

theorem processTools_output_eq (genS genC : Bool) (desired : List String)
    (v : String) (sel : String → Bool) :
    ∀ tools : List ToolInput,
      (processTools genS genC desired v sel tools).output =
        tools.filterMap (fun t =>
          if sel t.toolId && t.hasSkillsDir then
            some (match (reconcileTool genS genC desired v t).error with
                  | none => OutputLine.spinnerSucceed t.name
                  | some _ => OutputLine.spinnerFail t.name)
          else none)
  | [] => rfl
  | t :: ts => by
    have ih := processTools_output_eq genS genC desired v sel ts
    by_cases hsel : (sel t.toolId && t.hasSkillsDir) = true
    · have hp := (Bool.and_eq_true _ _).mp hsel
      rcases herr : (reconcileTool genS genC desired v t).error with _ | e <;>
        simp [processTools, hsel, herr, ih, List.filterMap_cons, hp.1, hp.2]
    · have hn : ¬(sel t.toolId = true ∧ t.hasSkillsDir = true) := by
        simpa [Bool.and_eq_true] using hsel
      simp [processTools, hsel, ih, List.filterMap_cons, hn]


theorem runUpdate_fields_upToDate {cfg : GlobalConfigR} {tools : List ToolInput}
    {v : String} (hne : tools ≠ []) (hsel : selectedForUpdate cfg tools v = []) :
    (runUpdate cfg false tools v).upToDate = true ∧
    (runUpdate cfg false tools v).tools = tools ∧
    (runUpdate cfg false tools v).updated = [] ∧
    (runUpdate cfg false tools v).failed = [] ∧
    (runUpdate cfg false tools v).writes = 0 ∧
    (runUpdate cfg false tools v).removedSkills = 0 ∧
    (runUpdate cfg false tools v).removedCmds = 0 := by
  unfold runUpdate
  rw [if_neg (by simpa [List.isEmpty_iff] using hne)]
  rw [if_pos (by simp [hsel])]
  exact ⟨rfl, rfl, rfl, rfl, rfl, rfl, rfl⟩

theorem runUpdate_fields_loop {cfg : GlobalConfigR} {tools : List ToolInput}
    {v : String} {force : Bool} (hne : tools ≠ [])
    (hsel : (!force && (selectedForUpdate cfg tools v).isEmpty) = false) :
    (runUpdate cfg force tools v).upToDate = false ∧
    (runUpdate cfg force tools v).tools =
      (processTools (genSkillsOf cfg) (genCommandsOf cfg) (desiredWorkflowsOf cfg) v
        (fun id => force || (selectedForUpdate cfg tools v).contains id) tools).tools ∧
    (runUpdate cfg force tools v).updated =
      (processTools (genSkillsOf cfg) (genCommandsOf cfg) (desiredWorkflowsOf cfg) v
        (fun id => force || (selectedForUpdate cfg tools v).contains id) tools).updated ∧
    (runUpdate cfg force tools v).failed =
      (processTools (genSkillsOf cfg) (genCommandsOf cfg) (desiredWorkflowsOf cfg) v
        (fun id => force || (selectedForUpdate cfg tools v).contains id) tools).failed := by
  unfold runUpdate
  rw [if_neg (by simpa [List.isEmpty_iff] using hne)]
  rw [if_neg (by simp [hsel])]
  exact ⟨rfl, rfl, rfl, rfl⟩

theorem runUpdate_failedSummary_mem {cfg : GlobalConfigR} {tools : List ToolInput}
    {v : String} {force : Bool} (hne : tools ≠ [])
    (hsel : (!force && (selectedForUpdate cfg tools v).isEmpty) = false)
    (hfail : (runUpdate cfg force tools v).failed ≠ []) :
    OutputLine.failedSummary (runUpdate cfg force tools v).failed ∈
      (runUpdate cfg force tools v).output := by
  have hfields := runUpdate_fields_loop hne hsel
  have hfail2 := hfail
  rw [hfields.2.2.2] at hfail2
  have hout : (runUpdate cfg force tools v).output =
      [OutputLine.updatePlan (if force then tools.map (fun t => t.toolId)
        else selectedForUpdate cfg tools v)] ++
      (processTools (genSkillsOf cfg) (genCommandsOf cfg) (desiredWorkflowsOf cfg) v
        (fun id => force || (selectedForUpdate cfg tools v).contains id) tools).output ++
      (if (processTools (genSkillsOf cfg) (genCommandsOf cfg) (desiredWorkflowsOf cfg) v
        (fun id => force || (selectedForUpdate cfg tools v).contains id) tools).updated.isEmpty
       then []
       else [OutputLine.updatedSummary
        (processTools (genSkillsOf cfg) (genCommandsOf cfg) (desiredWorkflowsOf cfg) v
          (fun id => force || (selectedForUpdate cfg tools v).contains id) tools).updated]) ++
      (if (processTools (genSkillsOf cfg) (genCommandsOf cfg) (desiredWorkflowsOf cfg) v
        (fun id => force || (selectedForUpdate cfg tools v).contains id) tools).failed.isEmpty
       then []
       else [OutputLine.failedSummary
        (processTools (genSkillsOf cfg) (genCommandsOf cfg) (desiredWorkflowsOf cfg) v
          (fun id => force || (selectedForUpdate cfg tools v).contains id) tools).failed]) ++
      (if (processTools (genSkillsOf cfg) (genCommandsOf cfg) (desiredWorkflowsOf cfg) v
        (fun id => force || (selectedForUpdate cfg tools v).contains id) tools).removedCmds = 0
       then []
       else [OutputLine.removedCommandsNote
        (processTools (genSkillsOf cfg) (genCommandsOf cfg) (desiredWorkflowsOf cfg) v
          (fun id => force || (selectedForUpdate cfg tools v).contains id) tools).removedCmds]) ++
      (if (processTools (genSkillsOf cfg) (genCommandsOf cfg) (desiredWorkflowsOf cfg) v
        (fun id => force || (selectedForUpdate cfg tools v).contains id) tools).removedSkills = 0
       then []
       else [OutputLine.removedSkillsNote
        (processTools (genSkillsOf cfg) (genCommandsOf cfg) (desiredWorkflowsOf cfg) v
          (fun id => force || (selectedForUpdate cfg tools v).contains id) tools).removedSkills]) ++
      (if (extraWorkflows
        (processTools (genSkillsOf cfg) (genCommandsOf cfg) (desiredWorkflowsOf cfg) v
          (fun id => force || (selectedForUpdate cfg tools v).contains id) tools).tools
        (desiredWorkflowsOf cfg)).isEmpty
       then []
       else [OutputLine.extraWorkflowsNote (extraWorkflows
        (processTools (genSkillsOf cfg) (genCommandsOf cfg) (desiredWorkflowsOf cfg) v
          (fun id => force || (selectedForUpdate cfg tools v).contains id) tools).tools
        (desiredWorkflowsOf cfg)).length]) := by
    unfold runUpdate
    rw [if_neg (by simpa [List.isEmpty_iff] using hne)]
    rw [if_neg (by simp [hsel])]
  rw [hout, hfields.2.2.2]
  simp only [List.mem_append]
  left; left; left; right
  rw [if_neg (by simpa [List.isEmpty_iff] using hfail2)]
  simp

theorem runUpdate_updatedSummary_mem {cfg : GlobalConfigR} {tools : List ToolInput}
    {v : String} {force : Bool} (hne : tools ≠ [])
    (hsel : (!force && (selectedForUpdate cfg tools v).isEmpty) = false)
    (hupd : (runUpdate cfg force tools v).updated ≠ []) :
    OutputLine.updatedSummary (runUpdate cfg force tools v).updated ∈
      (runUpdate cfg force tools v).output := by
  have hfields := runUpdate_fields_loop hne hsel
  have hupd2 := hupd
  rw [hfields.2.2.1] at hupd2
  have hout : (runUpdate cfg force tools v).output =
      [OutputLine.updatePlan (if force then tools.map (fun t => t.toolId)
        else selectedForUpdate cfg tools v)] ++
      (processTools (genSkillsOf cfg) (genCommandsOf cfg) (desiredWorkflowsOf cfg) v
        (fun id => force || (selectedForUpdate cfg tools v).contains id) tools).output ++
      (if (processTools (genSkillsOf cfg) (genCommandsOf cfg) (desiredWorkflowsOf cfg) v
        (fun id => force || (selectedForUpdate cfg tools v).contains id) tools).updated.isEmpty
       then []
       else [OutputLine.updatedSummary
        (processTools (genSkillsOf cfg) (genCommandsOf cfg) (desiredWorkflowsOf cfg) v
          (fun id => force || (selectedForUpdate cfg tools v).contains id) tools).updated]) ++
      (if (processTools (genSkillsOf cfg) (genCommandsOf cfg) (desiredWorkflowsOf cfg) v
        (fun id => force || (selectedForUpdate cfg tools v).contains id) tools).failed.isEmpty
       then []
       else [OutputLine.failedSummary
        (processTools (genSkillsOf cfg) (genCommandsOf cfg) (desiredWorkflowsOf cfg) v
          (fun id => force || (selectedForUpdate cfg tools v).contains id) tools).failed]) ++
      (if (processTools (genSkillsOf cfg) (genCommandsOf cfg) (desiredWorkflowsOf cfg) v
        (fun id => force || (selectedForUpdate cfg tools v).contains id) tools).removedCmds = 0
       then []
       else [OutputLine.removedCommandsNote
        (processTools (genSkillsOf cfg) (genCommandsOf cfg) (desiredWorkflowsOf cfg) v
          (fun id => force || (selectedForUpdate cfg tools v).contains id) tools).removedCmds]) ++
      (if (processTools (genSkillsOf cfg) (genCommandsOf cfg) (desiredWorkflowsOf cfg) v
        (fun id => force || (selectedForUpdate cfg tools v).contains id) tools).removedSkills = 0
       then []
       else [OutputLine.removedSkillsNote
        (processTools (genSkillsOf cfg) (genCommandsOf cfg) (desiredWorkflowsOf cfg) v
          (fun id => force || (selectedForUpdate cfg tools v).contains id) tools).removedSkills]) ++
      (if (extraWorkflows
        (processTools (genSkillsOf cfg) (genCommandsOf cfg) (desiredWorkflowsOf cfg) v
          (fun id => force || (selectedForUpdate cfg tools v).contains id) tools).tools
        (desiredWorkflowsOf cfg)).isEmpty
       then []
       else [OutputLine.extraWorkflowsNote (extraWorkflows
        (processTools (genSkillsOf cfg) (genCommandsOf cfg) (desiredWorkflowsOf cfg) v
          (fun id => force || (selectedForUpdate cfg tools v).contains id) tools).tools
        (desiredWorkflowsOf cfg)).length]) := by
    unfold runUpdate
    rw [if_neg (by simpa [List.isEmpty_iff] using hne)]
    rw [if_neg (by simp [hsel])]
  rw [hout, hfields.2.2.1]
  simp only [List.mem_append]
  left; left; left; left; right
  rw [if_neg (by simpa [List.isEmpty_iff] using hupd2)]
  simp



/-! ### Claim theorems -/

/-- C5: profile resolution.  `getProfileWorkflows` returns the fixed core
workflow list for `core` regardless of any supplied custom list (never
merging), returns the supplied custom list verbatim for `custom` (an
absent or empty list giving the empty set), and treats every profile
value outside the two valid variants exactly as `core`.  Being a Lean
`def`, the function is pure and total over all representable inputs. -/
theorem C5_profile_resolution :
    (∀ cw, getProfileWorkflows "core" cw = CORE_WORKFLOWS) ∧
    (∀ l, getProfileWorkflows "custom" (some l) = l) ∧
    getProfileWorkflows "custom" none = [] ∧
    (∀ p cw, p ≠ "core" → p ≠ "custom" →
      getProfileWorkflows p cw = getProfileWorkflows "core" cw) := by
  refine ⟨fun cw => rfl, fun l => rfl, rfl, fun p cw _ h2 => ?_⟩
  simp [getProfileWorkflows, h2]

/-- C5 witness: the invalid profile string `weird` resolves exactly as
`core`, ignoring the supplied custom list. -/
theorem C5_profile_resolution_witness :
    getProfileWorkflows "weird" (some ["new"]) =
      getProfileWorkflows "core" (some ["new"]) :=
  C5_profile_resolution.2.2.2 "weird" (some ["new"]) (by decide) (by decide)

/-- C7: exact-version staleness forces reconciliation.  The probe's
`needsUpdate` is true exactly when the extracted marker is absent or
differs from the running version by exact string equality (no range
matching), and every version-stale tool is in the set selected for a
non-forced update, regardless of its drift status. -/
theorem C7_version_staleness :
    (∀ (fs : ToolFs) (v : String),
      statusNeedsUpdate fs v = true ↔
        (probeGeneratedByVersion fs = none ∨
          probeGeneratedByVersion fs ≠ some v)) ∧
    (∀ (cfg : GlobalConfigR) (tools : List ToolInput) (v : String) (t : ToolInput),
      t ∈ tools → statusNeedsUpdate t.fs v = true →
        t.toolId ∈ selectedForUpdate cfg tools v) := by
  constructor
  · intro fs v
    unfold statusNeedsUpdate
    rcases hp : probeGeneratedByVersion fs with _ | g
    · simp
    · simp only [hp]
      constructor
      · intro h
        right
        simp only [ne_eq, Option.some.injEq]
        simpa using h
      · rintro (h | h)
        · exact absurd h (by simp)
        · simp only [ne_eq, Option.some.injEq] at h
          simpa using h
  · intro cfg tools v t ht hstale
    exact mem_selected_of_stale ht hstale

/-- C7 witness: a tool whose only skill file embeds `0.1.0` while the
running version is `1.0.0` satisfies the staleness characterization and
is selected for update. -/
theorem C7_version_staleness_witness :
    (statusNeedsUpdate staleExploreTool.fs "1.0.0" = true ↔
      (probeGeneratedByVersion staleExploreTool.fs = none ∨
        probeGeneratedByVersion staleExploreTool.fs ≠ some "1.0.0")) ∧
    "claude" ∈ selectedForUpdate cfgOnlyExplore [staleExploreTool] "1.0.0" :=
  ⟨C7_version_staleness.1 staleExploreTool.fs "1.0.0",
   C7_version_staleness.2 cfgOnlyExplore [staleExploreTool] "1.0.0" staleExploreTool
     (List.mem_singleton.mpr rfl) (by decide)⟩

/-- C8: full-catalog removal on delivery change, idempotently.  When
delivery excludes skills, reconciling removes the skill directory of
every workflow in the full seven-element catalog, not only the desired
ones; symmetrically every catalog command file is removed when delivery
excludes commands and the tool has an adapter.  The removal helpers are
total functions that swallow `rm` errors, and removing already-absent
artifacts is a no-op returning the state unchanged with count `0`. -/
theorem C8_full_catalog_removal :
    (∀ (genC : Bool) (desired : List String) (v : String) (t : ToolInput),
      t.allOpsOk → ∀ w ∈ ALL_WORKFLOWS,
        (reconcileTool false genC desired v t).fs.skillDir w = false) ∧
    (∀ (genS : Bool) (desired : List String) (v : String) (t : ToolInput),
      t.allOpsOk → t.hasAdapter = true → ∀ w ∈ ALL_WORKFLOWS,
        (reconcileTool genS false desired v t).fs.cmdFile w = false) ∧
    ALL_WORKFLOWS.length = 7 ∧
    (∀ w ∈ ALL_WORKFLOWS, (lookupSkillDir WORKFLOW_TO_SKILL_DIR w).isSome = true) ∧
    (∀ (rmOk : String → Bool) (fs : ToolFs),
      (∀ w ∈ ALL_WORKFLOWS, fs.skillDir w = false) →
        removeSkillDirsM rmOk fs = (fs, 0)) ∧
    (∀ (rmOk : String → Bool) (fs : ToolFs),
      (∀ w ∈ ALL_WORKFLOWS, fs.cmdFile w = false) →
        removeCommandFilesM rmOk true fs = (fs, 0)) := by
  refine ⟨?_, ?_, by decide, by decide, ?_, ?_⟩
  · intro genC desired v t hOk w hw
    rw [reconcileTool_fs_eq false genC desired v t hOk.1 hOk.2.1]
    exact pipeline_skillDir_removed genC desired v t hOk.2.2.1 hw
  · intro genS desired v t hOk ha w hw
    rw [reconcileTool_fs_eq genS false desired v t hOk.1 hOk.2.1]
    exact pipeline_cmd_removed genS desired v t hOk.2.2.2 ha hw
  · intro rmOk fs h
    exact removeSkillFold_noop rmOk ALL_WORKFLOWS (fs, 0) h
  · intro rmOk fs h
    unfold removeCommandFilesM
    rw [if_neg (by simp)]
    exact removeCmdFold_noop rmOk ALL_WORKFLOWS (fs, 0) h

/-- C8 witness: a skills-excluding reconcile of a concrete tool removes the
`explore` skill directory, and removal over an empty footprint is a no-op. -/
theorem C8_full_catalog_removal_witness :
    (reconcileTool false true ["explore"] "1.0.0" staleExploreTool).fs.skillDir "explore" = false ∧
    removeSkillDirsM (fun _ => true) ToolFs.empty = (ToolFs.empty, 0) :=
  ⟨C8_full_catalog_removal.1 true ["explore"] "1.0.0" staleExploreTool
     ⟨fun _ => rfl, fun _ => rfl, fun _ => rfl, fun _ => rfl⟩ "explore" (by decide),
   C8_full_catalog_removal.2.2.2.2.1 (fun _ => true) ToolFs.empty (fun w _ => rfl)⟩


theorem emptyfs_reconcile_kinds (genS genC : Bool) (desired : List String)
    (v : String) (t : ToolInput) (hOk : t.allOpsOk) (ha : t.hasAdapter = true)
    (hfs : t.fs = ToolFs.empty) :
    ∀ w ∈ ALL_WORKFLOWS,
      ((reconcileTool genS genC desired v t).fs.skillFile w).isSome =
        (genS && desired.contains w) ∧
      (reconcileTool genS genC desired v t).fs.cmdFile w =
        (genC && desired.contains w) := by
  intro w hw
  obtain ⟨hS, hC, hRs, hRc⟩ := hOk
  rw [reconcileTool_fs_eq genS genC desired v t hS hC]
  unfold reconcileFsPipeline
  rw [hfs]
  have hwt : w ∈ TEMPLATE_ORDER := (mem_ALL_iff_TEMPLATE w).mp hw
  have hnoop : removeSkillDirsM t.skillRmOk ToolFs.empty = (ToolFs.empty, 0) :=
    removeSkillFold_noop t.skillRmOk ALL_WORKFLOWS (ToolFs.empty, 0) (fun u _ => rfl)
  have hWS := writeSkillFiles_allOk t.skillWriteOk v
    (TEMPLATE_ORDER.filter (fun u => desired.contains u)) ToolFs.empty (fun u _ => hS u)
  have hWSc := writeSkillFiles_cmd_unchanged t.skillWriteOk v
    (TEMPLATE_ORDER.filter (fun u => desired.contains u)) ToolFs.empty
  have hWCs : ∀ fs0 : ToolFs,
      (writeCmdFiles t.cmdWriteOk (TEMPLATE_ORDER.filter (fun u => desired.contains u)) fs0).1.skillFile w =
        fs0.skillFile w :=
    fun fs0 => congrFun (writeCmdFiles_skill_unchanged t.cmdWriteOk _ fs0).1 w
  have hRCs : ∀ fs0 : ToolFs,
      (ALL_WORKFLOWS.foldl (removeCmdStep t.cmdRmOk) (fs0, 0)).1.skillFile w =
        fs0.skillFile w :=
    fun fs0 => congrFun (removeCmdFold_skill_unchanged t.cmdRmOk ALL_WORKFLOWS (fs0, 0)).1 w
  have hRCrm : ∀ fs0 : ToolFs,
      (ALL_WORKFLOWS.foldl (removeCmdStep t.cmdRmOk) (fs0, 0)).1.cmdFile w = false :=
    fun fs0 => removeCmdFold_removes t.cmdRmOk ALL_WORKFLOWS (fs0, 0) w (hRc w) hw
  by_cases hd : w ∈ desired
  · have hcont : desired.contains w = true := by simpa using hd
    have hmemdl : w ∈ TEMPLATE_ORDER.filter (fun u => desired.contains u) :=
      mem_filter_template desired hd hwt
    have hWSf := hWS.2.1 w hmemdl
    have hWCf : ∀ fs0 : ToolFs,
        (writeCmdFiles t.cmdWriteOk (TEMPLATE_ORDER.filter (fun u => desired.contains u)) fs0).1.cmdFile w = true :=
      fun fs0 => (writeCmdFiles_allOk t.cmdWriteOk _ fs0 (fun u _ => hC u)).2.1 w hmemdl
    cases genS <;> cases genC <;>
      simp_all [ha, removeCommandFilesM, ToolFs.empty]
  · have hcont : desired.contains w = false := by
      rw [Bool.eq_false_iff]
      intro hcc
      exact hd (by simpa using hcc)
    have hnotdl : w ∉ TEMPLATE_ORDER.filter (fun u => desired.contains u) := by
      intro hmem
      exact hd (by simpa using (List.mem_filter.mp hmem).2)
    have hWSf := (hWS.2.2 w hnotdl).1
    have hWCf : ∀ fs0 : ToolFs,
        (writeCmdFiles t.cmdWriteOk (TEMPLATE_ORDER.filter (fun u => desired.contains u)) fs0).1.cmdFile w =
          fs0.cmdFile w :=
      fun fs0 => (writeCmdFiles_allOk t.cmdWriteOk _ fs0 (fun u _ => hC u)).2.2 w hnotdl
    cases genS <;> cases genC <;>
      simp_all [ha, removeCommandFilesM, ToolFs.empty]


/-- C3 counterexample: delivery alone does not determine the generated
artifact kinds.  For the tool `claude`, init generates command artifacts
even when delivery is `skills` (where `shouldGenerateCommands` is false)
and generates no skill artifacts even when delivery is `both` (where
`shouldGenerateSkills` is true). -/
theorem C3_delivery_counterexample :
    (initToolGenerate "claude" (shouldGenerateSkills "skills")
      (shouldGenerateCommands "skills")).2 = true ∧
    shouldGenerateCommands "skills" = false ∧
    (initToolGenerate "claude" (shouldGenerateSkills "both")
      (shouldGenerateCommands "both")).1 = false ∧
    shouldGenerateSkills "both" = true := by decide

/-- C3 amended: delivery alone determines the generated artifact kinds in
the update command, and in init for every tool other than `claude`:
skills are generated iff delivery ≠ `commands` and commands iff delivery
≠ `skills`.  The tool `claude` is the one per-tool exception in init: it
always generates commands only, whatever the delivery.  On the update
path, reconciling a tool with an adapter from an empty footprint produces
a skill artifact for exactly the desired workflows iff skills are
generated, and a command artifact for exactly the desired workflows iff
commands are generated. -/
theorem C3_delivery_determines_kinds_amended :
    (∀ (d t : String), t ≠ "claude" →
      initToolGenerate t (shouldGenerateSkills d) (shouldGenerateCommands d) =
        (shouldGenerateSkills d, shouldGenerateCommands d)) ∧
    (∀ gS gC : Bool, initToolGenerate "claude" gS gC = (false, true)) ∧
    (∀ d, shouldGenerateSkills d = true ↔ d ≠ "commands") ∧
    (∀ d, shouldGenerateCommands d = true ↔ d ≠ "skills") ∧
    (∀ (genS genC : Bool) (desired : List String) (v : String) (t : ToolInput),
      t.allOpsOk → t.hasAdapter = true → t.fs = ToolFs.empty →
      ∀ w ∈ ALL_WORKFLOWS,
        ((reconcileTool genS genC desired v t).fs.skillFile w).isSome =
          (genS && desired.contains w) ∧
        (reconcileTool genS genC desired v t).fs.cmdFile w =
          (genC && desired.contains w)) := by
  refine ⟨?_, ?_, ?_, ?_, ?_⟩
  · intro d t ht
    simp [initToolGenerate, ht]
  · intro gS gC
    simp [initToolGenerate]
  · intro d
    simp [shouldGenerateSkills]
  · intro d
    simp [shouldGenerateCommands]
  · intro genS genC desired v t hOk ha hfs
    exact emptyfs_reconcile_kinds genS genC desired v t hOk ha hfs

/-- C3 amended witness: with delivery `skills`, the tool `cursor` follows
the delivery switches while `claude` still generates commands only, and a
concrete skills-and-commands reconcile of the desired workflow `explore`
from an empty footprint creates both artifact kinds for it. -/
theorem C3_delivery_determines_kinds_amended_witness :
    initToolGenerate "cursor" (shouldGenerateSkills "skills")
      (shouldGenerateCommands "skills") =
      (shouldGenerateSkills "skills", shouldGenerateCommands "skills") ∧
    initToolGenerate "claude" true false = (false, true) ∧
    (((reconcileTool true true ["explore"] "1.0.0"
        { staleExploreTool with fs := ToolFs.empty }).fs.skillFile "explore").isSome =
      (true && (["explore"].contains "explore")) ∧
     (reconcileTool true true ["explore"] "1.0.0"
        { staleExploreTool with fs := ToolFs.empty }).fs.cmdFile "explore" =
      (true && (["explore"].contains "explore"))) :=
  ⟨C3_delivery_determines_kinds_amended.1 "skills" "cursor" (by decide),
   C3_delivery_determines_kinds_amended.2.1 true false,
   C3_delivery_determines_kinds_amended.2.2.2.2 true true ["explore"] "1.0.0"
     { staleExploreTool with fs := ToolFs.empty }
     ⟨fun _ => rfl, fun _ => rfl, fun _ => rfl, fun _ => rfl⟩ rfl rfl
     "explore" (by decide)⟩


/-- C4: one-shot config migration, gated by key presence.  `migrateIfNeeded`
persists `profile = custom` with exactly the scanned workflow set iff the
raw config has no `profile` key (the file being absent also counts as
having no key, as in the source) and the scan finds at least one
installed workflow; in every other case — `profile` key present with any
value, empty scan, or unreadable config file — the persisted file is left
unchanged.  Once it has fired the `profile` key is present, so it fires
at most once per project. -/
theorem C4_migration_once :
    (∀ (cf : ConfigFile) (tools : List ToolInput),
      (migrateIfNeededM cf tools).saved = true ↔
        ((cf = ConfigFile.missing ∨ ∃ wk, cf = ConfigFile.parsed none wk) ∧
          scanInstalledWorkflowsM tools ≠ [])) ∧
    (∀ (cf : ConfigFile) (tools : List ToolInput),
      (migrateIfNeededM cf tools).saved = true →
      (migrateIfNeededM cf tools).config =
        ConfigFile.parsed (some "custom") (some (scanInstalledWorkflowsM tools))) ∧
    (∀ (cf : ConfigFile) (tools : List ToolInput),
      (migrateIfNeededM cf tools).saved = false →
      (migrateIfNeededM cf tools).config = cf) ∧
    (∀ (cf : ConfigFile) (tools tools2 : List ToolInput),
      (migrateIfNeededM cf tools).saved = true →
      (migrateIfNeededM (migrateIfNeededM cf tools).config tools2).saved = false) := by
  have hchar : ∀ (cf : ConfigFile) (tools : List ToolInput),
      (migrateIfNeededM cf tools).saved = true ↔
        ((cf = ConfigFile.missing ∨ ∃ wk, cf = ConfigFile.parsed none wk) ∧
          scanInstalledWorkflowsM tools ≠ []) := by
    intro cf tools
    rcases cf with _ | _ | ⟨pk, wk⟩
    · unfold migrateIfNeededM
      by_cases hsc : (scanInstalledWorkflowsM tools).isEmpty = true
      · simp [hsc, List.isEmpty_iff.mp hsc]
      · have : scanInstalledWorkflowsM tools ≠ [] := by
          intro hc; exact hsc (by simp [hc])
        simp [hsc, this]
    · simp [migrateIfNeededM]
    · rcases pk with _ | p
      · unfold migrateIfNeededM
        by_cases hsc : (scanInstalledWorkflowsM tools).isEmpty = true
        · simp [hsc, List.isEmpty_iff.mp hsc]
        · have : scanInstalledWorkflowsM tools ≠ [] := by
            intro hc; exact hsc (by simp [hc])
          simp [hsc, this]
      · simp [migrateIfNeededM]
  refine ⟨hchar, ?_, ?_, ?_⟩
  · intro cf tools hsaved
    rcases cf with _ | _ | ⟨pk, wk⟩
    · unfold migrateIfNeededM at *
      by_cases hsc : (scanInstalledWorkflowsM tools).isEmpty = true
      · simp [hsc] at hsaved
      · simp [hsc]
    · simp [migrateIfNeededM] at hsaved
    · rcases pk with _ | p
      · unfold migrateIfNeededM at *
        by_cases hsc : (scanInstalledWorkflowsM tools).isEmpty = true
        · simp [hsc] at hsaved
        · simp [hsc]
      · simp [migrateIfNeededM] at hsaved
  · intro cf tools hns
    rcases cf with _ | _ | ⟨pk, wk⟩
    · unfold migrateIfNeededM at *
      by_cases hsc : (scanInstalledWorkflowsM tools).isEmpty = true
      · simp [hsc]
      · simp [hsc] at hns
    · simp [migrateIfNeededM]
    · rcases pk with _ | p
      · unfold migrateIfNeededM at *
        by_cases hsc : (scanInstalledWorkflowsM tools).isEmpty = true
        · simp [hsc]
        · simp [hsc] at hns
      · simp [migrateIfNeededM]
  · intro cf tools tools2 hsaved
    have hcfg : (migrateIfNeededM cf tools).config =
        ConfigFile.parsed (some "custom") (some (scanInstalledWorkflowsM tools)) := by
      rcases cf with _ | _ | ⟨pk, wk⟩
      · unfold migrateIfNeededM at *
        by_cases hsc : (scanInstalledWorkflowsM tools).isEmpty = true
        · simp [hsc] at hsaved
        · simp [hsc]
      · simp [migrateIfNeededM] at hsaved
      · rcases pk with _ | p
        · unfold migrateIfNeededM at *
          by_cases hsc : (scanInstalledWorkflowsM tools).isEmpty = true
          · simp [hsc] at hsaved
          · simp [hsc]
        · simp [migrateIfNeededM] at hsaved
    rw [hcfg]
    simp [migrateIfNeededM]

/-- C4 witness: with no config file and a project whose only installed
workflow is `explore`, migration fires once, persists the custom profile
with exactly `explore`, and a second migration attempt on the persisted
config is a no-op. -/
theorem C4_migration_once_witness :
    ((migrateIfNeededM ConfigFile.missing [staleExploreTool]).saved = true ↔
      ((ConfigFile.missing = ConfigFile.missing ∨
        ∃ wk, ConfigFile.missing = ConfigFile.parsed none wk) ∧
        scanInstalledWorkflowsM [staleExploreTool] ≠ [])) ∧
    (migrateIfNeededM ConfigFile.missing [staleExploreTool]).config =
      ConfigFile.parsed (some "custom")
        (some (scanInstalledWorkflowsM [staleExploreTool])) ∧
    (migrateIfNeededM
      (migrateIfNeededM ConfigFile.missing [staleExploreTool]).config
      [staleExploreTool]).saved = false :=
  ⟨C4_migration_once.1 ConfigFile.missing [staleExploreTool],
   C4_migration_once.2.1 ConfigFile.missing [staleExploreTool] (by decide),
   C4_migration_once.2.2.2 ConfigFile.missing [staleExploreTool] [staleExploreTool]
     (by decide)⟩


/-- C6 counterexample: an invalid `--profile` string does raise a
validation error, but not before every mutation: on a project with
legacy artifacts, a forced init performs the legacy cleanup before the
override is validated, so a mutation precedes the error. -/
theorem C6_profile_override_counterexample :
    (initRunModel initParamsLegacyBadProfile).stop =
      InitStop.threw "Invalid profile fast" ∧
    (initRunModel initParamsLegacyBadProfile).mutations =
      [InitMutation.legacyCleanup] := by decide

/-- C6 amended: an invalid `--profile` string always raises the validation
error with no silent fallback to a valid profile, and the error precedes
every directory-structure, artifact-generation or config-creation
mutation; legacy-artifact cleanup and the one-time config migration,
however, run before the override is validated and may already have
mutated state.  The hypothesis on legacy handling excludes the runs that
`process.exit` inside legacy handling before reaching the validation. -/
theorem C6_profile_override_amended :
    ∀ (p : InitParams) (s : String), p.profileOverride = some s →
      s ≠ "core" → s ≠ "custom" → p.permOk = true →
      (p.hasLegacy = true → p.force = true ∨
        (p.canPrompt = true ∧ p.confirmCleanup = true)) →
      (initRunModel p).stop = InitStop.threw ("Invalid profile " ++ s) ∧
      InitMutation.structureCreated ∉ (initRunModel p).mutations ∧
      InitMutation.artifactsGenerated ∉ (initRunModel p).mutations := by
  intro p s hov h1 h2 hperm hleg
  have hres : resolveProfileOverride p.profileOverride =
      Except.error ("Invalid profile " ++ s) := by
    rw [hov]
    simp [resolveProfileOverride, h1, h2]
  unfold initRunModel
  rw [hperm]
  simp only [Bool.not_true, if_false, Bool.false_eq_true]
  rcases hl : p.hasLegacy with _ | _
  · simp only [if_neg (by simp : ¬(false = true))]
    by_cases hm : (p.extendMode && (migrateIfNeededM p.configFile p.tools).saved) = true <;>
      simp [hm, hres]
  · rcases hleg hl with hf | ⟨hcp, hcc⟩
    · simp only [hf, if_pos rfl, if_pos rfl]
      by_cases hm : (p.extendMode && (migrateIfNeededM p.configFile p.tools).saved) = true <;>
        simp [hm, hres]
    · rcases hforce : p.force with _ | _
      · simp only [hcp, hcc]
        by_cases hm : (p.extendMode && (migrateIfNeededM p.configFile p.tools).saved) = true <;>
          simp [hm, hres, hforce]
      · simp only [if_pos rfl]
        by_cases hm : (p.extendMode && (migrateIfNeededM p.configFile p.tools).saved) = true <;>
          simp [hm, hres]

/-- C6 amended witness: a clean, non-legacy, non-extend init with the
invalid override `fast` throws the validation error with no structure or
generation mutation. -/
theorem C6_profile_override_amended_witness :
    (initRunModel initParamsCleanBadProfile).stop =
      InitStop.threw ("Invalid profile " ++ "fast") ∧
    InitMutation.structureCreated ∉
      (initRunModel initParamsCleanBadProfile).mutations ∧
    InitMutation.artifactsGenerated ∉
      (initRunModel initParamsCleanBadProfile).mutations :=
  C6_profile_override_amended initParamsCleanBadProfile "fast" rfl
    (by decide) (by decide) rfl (by intro h; exact absurd h (by decide))


theorem drift_false_of_no_skillsDir {t : ToolInput} (h : t.hasSkillsDir = false)
    (desired : List String) (genS genC : Bool) :
    hasProfileOrDeliveryDrift t desired genS genC = false := by
  unfold hasProfileOrDeliveryDrift
  rw [if_pos (by simp [h])]

theorem desired_subset_ALL (cfg : GlobalConfigR) :
    ∀ w ∈ desiredWorkflowsOf cfg, w ∈ ALL_WORKFLOWS := by
  intro w hw
  unfold desiredWorkflowsOf at hw
  have := (List.mem_filter.mp hw).2
  simpa using this

theorem runUpdate_drift_false_and_no_failure
    (cfg : GlobalConfigR) (tools : List ToolInput) (v : String)
    (hOk : ∀ t ∈ tools, t.allOpsOk) (hne : tools ≠ []) :
    (runUpdate cfg false tools v).failed = [] ∧
    (∀ t ∈ (runUpdate cfg false tools v).tools,
      hasProfileOrDeliveryDrift t (desiredWorkflowsOf cfg) (genSkillsOf cfg)
        (genCommandsOf cfg) = false) := by
  by_cases hsel : selectedForUpdate cfg tools v = []
  · have hfields := runUpdate_fields_upToDate hne hsel
    refine ⟨hfields.2.2.2.1, ?_⟩
    rw [hfields.2.1]
    intro t ht
    exact ((selected_eq_nil_iff.mp hsel) t ht).2
  · have hselb : (!false && (selectedForUpdate cfg tools v).isEmpty) = false := by
      simp [List.isEmpty_iff, hsel]
    have hfields := runUpdate_fields_loop hne hselb
    constructor
    · rw [hfields.2.2.2, processTools_failed_eq]
      rw [List.filterMap_eq_nil_iff]
      intro t ht
      by_cases hs : ((fun id => false || (selectedForUpdate cfg tools v).contains id) t.toolId
          && t.hasSkillsDir) = true
      · rw [if_pos hs, reconcileTool_error_none (genSkillsOf cfg) (genCommandsOf cfg)
          (desiredWorkflowsOf cfg) v t (hOk t ht).1 (hOk t ht).2.1]
        rfl
      · rw [if_neg hs]
    · rw [hfields.2.1, processTools_tools_eq]
      intro t' ht'
      rw [List.mem_map] at ht'
      obtain ⟨t, ht, rfl⟩ := ht'
      by_cases hs : ((fun id => false || (selectedForUpdate cfg tools v).contains id) t.toolId
          && t.hasSkillsDir) = true
      · rw [if_pos hs]
        rw [reconcileTool_fs_eq (genSkillsOf cfg) (genCommandsOf cfg)
          (desiredWorkflowsOf cfg) v t (hOk t ht).1 (hOk t ht).2.1]
        exact drift_false_after_pipeline (genSkillsOf cfg) (genCommandsOf cfg)
          (desiredWorkflowsOf cfg) v t (hOk t ht) (desired_subset_ALL cfg)
      · rw [if_neg hs]
        rcases Bool.and_eq_false_iff.mp (Bool.eq_false_iff.mpr hs) with hsf | hdf
        · by_contra hdr
          have hdr2 : hasProfileOrDeliveryDrift t (desiredWorkflowsOf cfg)
              (genSkillsOf cfg) (genCommandsOf cfg) = true := by
            rcases Bool.eq_false_or_eq_true (hasProfileOrDeliveryDrift t
              (desiredWorkflowsOf cfg) (genSkillsOf cfg) (genCommandsOf cfg)) with h | h
            · exact h
            · exact absurd h hdr
          have hmem := @mem_selected_of_drift cfg tools v t ht hdr2
          simp only [Bool.false_or] at hsf
          rw [Bool.eq_false_iff] at hsf
          exact hsf (by simpa using hmem)
        · exact drift_false_of_no_skillsDir hdf _ _ _
      

theorem runUpdate_tools_ne_nil {cfg : GlobalConfigR} {tools : List ToolInput}
    {v : String} (hne : tools ≠ []) :
    (runUpdate cfg false tools v).tools ≠ [] := by
  by_cases hsel : selectedForUpdate cfg tools v = []
  · rw [(runUpdate_fields_upToDate hne hsel).2.1]
    exact hne
  · have hselb : (!false && (selectedForUpdate cfg tools v).isEmpty) = false := by
      simp [List.isEmpty_iff, hsel]
    rw [(runUpdate_fields_loop hne hselb).2.1, processTools_tools_eq]
    simpa using hne

/-- C1 counterexample: a completed non-forced update run with every tool
reconciled and no failure, after which an immediately following
non-forced run with the same configuration and version does not take the
up-to-date branch — the version-status check stays positive because the
run wrote nothing that refreshes the stale marker (custom profile with an
empty workflow list and a stale `explore` skill file). -/
theorem C1_idempotence_counterexample :
    (runUpdate cfgEmptyCustom false [staleExploreTool] "1.0.0").failed = [] ∧
    (runUpdate cfgEmptyCustom false [staleExploreTool] "1.0.0").updated =
      ["Claude Code"] ∧
    (runUpdate cfgEmptyCustom false
      (runUpdate cfgEmptyCustom false [staleExploreTool] "1.0.0").tools
      "1.0.0").upToDate = false ∧
    ((runUpdate cfgEmptyCustom false [staleExploreTool] "1.0.0").tools.map
      (fun t => statusNeedsUpdate t.fs "1.0.0")) = [true] := by decide

/-- C1 amended: after a completed non-forced update run whose filesystem
operations all succeed, no tool has profile/delivery drift and the run
records no failure; if additionally the version-status check is negative
for every tool after the run, an immediately following non-forced run
takes the up-to-date branch, leaves every tool's files unchanged, and
performs zero writes and zero removals.  (The version-status check can
stay positive, e.g. when the probed marker sits on a file the run did not
rewrite, so the up-to-date branch is not guaranteed unconditionally.) -/
theorem C1_idempotence_amended :
    ∀ (cfg : GlobalConfigR) (tools : List ToolInput) (v : String),
      (∀ t ∈ tools, t.allOpsOk) → tools ≠ [] →
      (runUpdate cfg false tools v).failed = [] ∧
      (∀ t ∈ (runUpdate cfg false tools v).tools,
        hasProfileOrDeliveryDrift t (desiredWorkflowsOf cfg) (genSkillsOf cfg)
          (genCommandsOf cfg) = false) ∧
      ((∀ t ∈ (runUpdate cfg false tools v).tools,
          statusNeedsUpdate t.fs v = false) →
        (runUpdate cfg false (runUpdate cfg false tools v).tools v).upToDate = true ∧
        (runUpdate cfg false (runUpdate cfg false tools v).tools v).tools =
          (runUpdate cfg false tools v).tools ∧
        (runUpdate cfg false (runUpdate cfg false tools v).tools v).writes = 0 ∧
        (runUpdate cfg false (runUpdate cfg false tools v).tools v).removedSkills = 0 ∧
        (runUpdate cfg false (runUpdate cfg false tools v).tools v).removedCmds = 0) := by
  intro cfg tools v hOk hne
  have h1 := runUpdate_drift_false_and_no_failure cfg tools v hOk hne
  refine ⟨h1.1, h1.2, ?_⟩
  intro hstat
  have hne2 : (runUpdate cfg false tools v).tools ≠ [] := runUpdate_tools_ne_nil hne
  have hsel2 : selectedForUpdate cfg (runUpdate cfg false tools v).tools v = [] :=
    selected_eq_nil_iff.mpr (fun t ht => ⟨hstat t ht, h1.2 t ht⟩)
  have hf := runUpdate_fields_upToDate hne2 hsel2
  exact ⟨hf.1, hf.2.1, hf.2.2.2.2.1, hf.2.2.2.2.2.1, hf.2.2.2.2.2.2⟩

/-- C1 amended witness: a tool fully synced with the single-workflow
custom profile at the current version satisfies every hypothesis, and
the second run is the up-to-date no-op. -/
theorem C1_idempotence_amended_witness :
    (runUpdate cfgOnlyExplore false [syncedExploreTool] "1.0.0").failed = [] ∧
    (∀ t ∈ (runUpdate cfgOnlyExplore false [syncedExploreTool] "1.0.0").tools,
      hasProfileOrDeliveryDrift t (desiredWorkflowsOf cfgOnlyExplore)
        (genSkillsOf cfgOnlyExplore) (genCommandsOf cfgOnlyExplore) = false) ∧
    ((∀ t ∈ (runUpdate cfgOnlyExplore false [syncedExploreTool] "1.0.0").tools,
        statusNeedsUpdate t.fs "1.0.0" = false) →
      (runUpdate cfgOnlyExplore false
        (runUpdate cfgOnlyExplore false [syncedExploreTool] "1.0.0").tools
        "1.0.0").upToDate = true ∧
      (runUpdate cfgOnlyExplore false
        (runUpdate cfgOnlyExplore false [syncedExploreTool] "1.0.0").tools
        "1.0.0").tools =
        (runUpdate cfgOnlyExplore false [syncedExploreTool] "1.0.0").tools ∧
      (runUpdate cfgOnlyExplore false
        (runUpdate cfgOnlyExplore false [syncedExploreTool] "1.0.0").tools
        "1.0.0").writes = 0 ∧
      (runUpdate cfgOnlyExplore false
        (runUpdate cfgOnlyExplore false [syncedExploreTool] "1.0.0").tools
        "1.0.0").removedSkills = 0 ∧
      (runUpdate cfgOnlyExplore false
        (runUpdate cfgOnlyExplore false [syncedExploreTool] "1.0.0").tools
        "1.0.0").removedCmds = 0) :=
  C1_idempotence_amended cfgOnlyExplore [syncedExploreTool] "1.0.0"
    (fun t ht => by
      cases List.mem_singleton.mp ht
      exact ⟨fun _ => rfl, fun _ => rfl, fun _ => rfl, fun _ => rfl⟩)
    (by simp)


theorem drift_false_narrow {t : ToolInput} {d1 d2 : List String}
    {genS genC : Bool} (hsub : ∀ w ∈ d2, w ∈ d1)
    (h : hasProfileOrDeliveryDrift t d1 genS genC = false) :
    hasProfileOrDeliveryDrift t d2 genS genC = false := by
  unfold hasProfileOrDeliveryDrift at h ⊢
  cases hdir : t.hasSkillsDir
  · rw [if_pos (by simp [hdir])]
  · rw [if_neg (by simp [hdir])] at h ⊢
    rw [Bool.or_eq_false_iff] at h ⊢
    obtain ⟨hA, hB⟩ := h
    constructor
    · by_cases hgs : genS = true
      · rw [if_pos hgs] at hA ⊢
        rw [List.any_eq_false] at hA ⊢
        intro w hw
        exact hA w (hsub w hw)
      · rw [if_neg hgs] at hA ⊢
        exact hA
    · by_cases hc : (genC && t.hasAdapter) = true
      · rw [if_pos hc] at hB ⊢
        rw [List.any_eq_false] at hB ⊢
        intro w hw
        exact hB w (hsub w hw)
      · rw [if_neg hc] at hB ⊢
        exact hB

theorem runUpdate_output_upToDate {cfg : GlobalConfigR} {tools : List ToolInput}
    {v : String} (hne : tools ≠ []) (hsel : selectedForUpdate cfg tools v = []) :
    (runUpdate cfg false tools v).output =
      [OutputLine.upToDateMsg tools.length] ++
      (if (extraWorkflows tools (desiredWorkflowsOf cfg)).isEmpty then []
       else [OutputLine.extraWorkflowsNote
        (extraWorkflows tools (desiredWorkflowsOf cfg)).length]) := by
  unfold runUpdate
  rw [if_neg (by simpa [List.isEmpty_iff] using hne)]
  rw [if_pos (by simp [hsel])]


/-- C2 counterexample: a tool fully reconciled under the custom profile
with workflows `explore`, `new`, `apply`, then updated non-forced under
the narrowed custom profile with only `explore`: the managed skill file
of `new` and the command file of `apply` still exist afterwards (the run
takes the up-to-date branch), contradicting that exactly the artifacts
for `explore` remain. -/
theorem C2_narrowing_counterexample :
    (runUpdate cfgThreeWorkflows false [staleExploreTool] "1.0.0").failed = [] ∧
    ((runUpdate cfgOnlyExplore false
        (runUpdate cfgThreeWorkflows false [staleExploreTool] "1.0.0").tools
        "1.0.0").tools.map
      (fun t => ((t.fs.skillFile "new").isSome, t.fs.cmdFile "apply"))) =
      [(true, true)] ∧
    (runUpdate cfgOnlyExplore false
      (runUpdate cfgThreeWorkflows false [staleExploreTool] "1.0.0").tools
      "1.0.0").upToDate = true := by decide

/-- C2 amended: after a fully successful reconciliation under a wider
profile, a non-forced update under a narrowed profile with the same
delivery takes the up-to-date branch and changes nothing — every managed
artifact of the dropped workflows remains on disk — and stray installed
workflows outside the narrowed profile are only reported through the
extra-workflows note. -/
theorem C2_narrowing_amended :
    ∀ (cfg1 cfg2 : GlobalConfigR) (tools : List ToolInput) (v : String),
      (∀ t ∈ tools, t.allOpsOk) → tools ≠ [] →
      genSkillsOf cfg1 = genSkillsOf cfg2 →
      genCommandsOf cfg1 = genCommandsOf cfg2 →
      (∀ w ∈ desiredWorkflowsOf cfg2, w ∈ desiredWorkflowsOf cfg1) →
      (∀ t ∈ (runUpdate cfg1 false tools v).tools,
        statusNeedsUpdate t.fs v = false) →
      (runUpdate cfg2 false (runUpdate cfg1 false tools v).tools v).upToDate = true ∧
      (runUpdate cfg2 false (runUpdate cfg1 false tools v).tools v).tools =
        (runUpdate cfg1 false tools v).tools ∧
      (runUpdate cfg2 false (runUpdate cfg1 false tools v).tools v).writes = 0 ∧
      (runUpdate cfg2 false (runUpdate cfg1 false tools v).tools v).removedSkills = 0 ∧
      (runUpdate cfg2 false (runUpdate cfg1 false tools v).tools v).removedCmds = 0 ∧
      (extraWorkflows (runUpdate cfg1 false tools v).tools
          (desiredWorkflowsOf cfg2) ≠ [] →
        OutputLine.extraWorkflowsNote
          (extraWorkflows (runUpdate cfg1 false tools v).tools
            (desiredWorkflowsOf cfg2)).length ∈
          (runUpdate cfg2 false (runUpdate cfg1 false tools v).tools v).output) := by
  intro cfg1 cfg2 tools v hOk hne hgs hgc hsub hstat
  have h1 := runUpdate_drift_false_and_no_failure cfg1 tools v hOk hne
  have hne2 : (runUpdate cfg1 false tools v).tools ≠ [] := runUpdate_tools_ne_nil hne
  have hdrift2 : ∀ t ∈ (runUpdate cfg1 false tools v).tools,
      hasProfileOrDeliveryDrift t (desiredWorkflowsOf cfg2) (genSkillsOf cfg2)
        (genCommandsOf cfg2) = false := by
    intro t ht
    have := h1.2 t ht
    rw [hgs, hgc] at this
    exact drift_false_narrow hsub this
  have hsel2 : selectedForUpdate cfg2 (runUpdate cfg1 false tools v).tools v = [] :=
    selected_eq_nil_iff.mpr (fun t ht => ⟨hstat t ht, hdrift2 t ht⟩)
  have hf := runUpdate_fields_upToDate hne2 hsel2
  refine ⟨hf.1, hf.2.1, hf.2.2.2.2.1, hf.2.2.2.2.2.1, hf.2.2.2.2.2.2, ?_⟩
  intro hex
  rw [runUpdate_output_upToDate hne2 hsel2]
  rw [if_neg (by simpa [List.isEmpty_iff] using hex)]
  simp

/-- C2 amended witness: narrowing the concrete three-workflow custom
profile to only `explore` leaves the reconciled state untouched and
reports the two extra workflows. -/
theorem C2_narrowing_amended_witness :
    (runUpdate cfgOnlyExplore false
      (runUpdate cfgThreeWorkflows false [staleExploreTool] "1.0.0").tools
      "1.0.0").upToDate = true ∧
    (runUpdate cfgOnlyExplore false
      (runUpdate cfgThreeWorkflows false [staleExploreTool] "1.0.0").tools
      "1.0.0").tools =
      (runUpdate cfgThreeWorkflows false [staleExploreTool] "1.0.0").tools ∧
    (runUpdate cfgOnlyExplore false
      (runUpdate cfgThreeWorkflows false [staleExploreTool] "1.0.0").tools
      "1.0.0").writes = 0 ∧
    (runUpdate cfgOnlyExplore false
      (runUpdate cfgThreeWorkflows false [staleExploreTool] "1.0.0").tools
      "1.0.0").removedSkills = 0 ∧
    (runUpdate cfgOnlyExplore false
      (runUpdate cfgThreeWorkflows false [staleExploreTool] "1.0.0").tools
      "1.0.0").removedCmds = 0 ∧
    (extraWorkflows (runUpdate cfgThreeWorkflows false [staleExploreTool] "1.0.0").tools
        (desiredWorkflowsOf cfgOnlyExplore) ≠ [] →
      OutputLine.extraWorkflowsNote
        (extraWorkflows
          (runUpdate cfgThreeWorkflows false [staleExploreTool] "1.0.0").tools
          (desiredWorkflowsOf cfgOnlyExplore)).length ∈
        (runUpdate cfgOnlyExplore false
          (runUpdate cfgThreeWorkflows false [staleExploreTool] "1.0.0").tools
          "1.0.0").output) :=
  C2_narrowing_amended cfgThreeWorkflows cfgOnlyExplore [staleExploreTool] "1.0.0"
    (fun t ht => by
      cases List.mem_singleton.mp ht
      exact ⟨fun _ => rfl, fun _ => rfl, fun _ => rfl, fun _ => rfl⟩)
    (by simp) rfl rfl (by decide) (by decide)


theorem reconcileTool_writesBeforeFailure (genC : Bool) (desired : List String)
    (v : String) (t : ToolInput) :
    ∀ w ∈ (TEMPLATE_ORDER.filter (fun u => desired.contains u)).takeWhile
        t.skillWriteOk,
      (reconcileTool true genC desired v t).fs.skillFile w = some (some v) := by
  intro w hw
  have hbase := writeSkillFiles_takeWhile t.skillWriteOk v
    (TEMPLATE_ORDER.filter (fun u => desired.contains u)) t.fs w hw
  have hWCs : ∀ fs0 : ToolFs,
      (writeCmdFiles t.cmdWriteOk (TEMPLATE_ORDER.filter (fun u => desired.contains u)) fs0).1.skillFile w =
        fs0.skillFile w :=
    fun fs0 => congrFun (writeCmdFiles_skill_unchanged t.cmdWriteOk _ fs0).1 w
  have hRCs : ∀ fs0 : ToolFs,
      (ALL_WORKFLOWS.foldl (removeCmdStep t.cmdRmOk) (fs0, 0)).1.skillFile w =
        fs0.skillFile w :=
    fun fs0 => congrFun (removeCmdFold_skill_unchanged t.cmdRmOk ALL_WORKFLOWS (fs0, 0)).1 w
  unfold reconcileTool
  cases hgc : genC <;> cases ha : t.hasAdapter <;>
    rcases hs : (writeSkillFiles t.skillWriteOk v
      (TEMPLATE_ORDER.filter (fun u => desired.contains u)) t.fs).2.2 with _ | e <;>
    simp_all [removeCommandFilesM] <;>
    rcases hcc : (writeCmdFiles t.cmdWriteOk
      (TEMPLATE_ORDER.filter (fun u => desired.contains u))
      (writeSkillFiles t.skillWriteOk v
        (TEMPLATE_ORDER.filter (fun u => desired.contains u)) t.fs).1).2.2 with _ | e2 <;>
    simp_all


/-- C9 counterexample: a delete failure while reconciling a tool is caught
but not recorded against the tool: with skills-only delivery and a stray
`explore` command file whose `unlink` fails, the run reports the tool as
updated, records no failure, and leaves the file on disk. -/
theorem C9_failure_isolation_counterexample :
    (runUpdate cfgCoreSkills false [cmdRmFailTool] "1.0.0").failed = [] ∧
    (runUpdate cfgCoreSkills false [cmdRmFailTool] "1.0.0").updated =
      ["Claude Code"] ∧
    ((runUpdate cfgCoreSkills false [cmdRmFailTool] "1.0.0").tools.map
      (fun t => t.fs.cmdFile "explore")) = [true] := by decide

/-- C9 amended: per-tool failure isolation for write failures.  Each tool's
final footprint is a function of its own input alone and every processed
tool is reconciled whatever happened to its siblings; a caught reconcile
error is recorded against exactly the failing tool; a tool whose writes
all succeed never fails, so delete failures are caught but silently
ignored rather than recorded; the run always produces its aggregate
summary lines for the updated and failed lists; and the skill files
written before a failing skill write remain on disk. -/
theorem C9_failure_isolation_amended :
    (∀ (genS genC : Bool) (desired : List String) (v : String)
        (sel : String → Bool) (tools : List ToolInput),
      (processTools genS genC desired v sel tools).tools =
        tools.map (fun t =>
          if sel t.toolId && t.hasSkillsDir then
            { t with fs := (reconcileTool genS genC desired v t).fs }
          else t)) ∧
    (∀ (genS genC : Bool) (desired : List String) (v : String)
        (sel : String → Bool) (tools : List ToolInput),
      (processTools genS genC desired v sel tools).failed =
        tools.filterMap (fun t =>
          if sel t.toolId && t.hasSkillsDir then
            ((reconcileTool genS genC desired v t).error).map (fun e => (t.name, e))
          else none)) ∧
    (∀ (genS genC : Bool) (desired : List String) (v : String) (t : ToolInput),
      (∀ w, t.skillWriteOk w = true) → (∀ w, t.cmdWriteOk w = true) →
      (reconcileTool genS genC desired v t).error = none) ∧
    (∀ (cfg : GlobalConfigR) (tools : List ToolInput) (v : String) (force : Bool),
      tools ≠ [] → (!force && (selectedForUpdate cfg tools v).isEmpty) = false →
      ((runUpdate cfg force tools v).updated ≠ [] →
        OutputLine.updatedSummary (runUpdate cfg force tools v).updated ∈
          (runUpdate cfg force tools v).output) ∧
      ((runUpdate cfg force tools v).failed ≠ [] →
        OutputLine.failedSummary (runUpdate cfg force tools v).failed ∈
          (runUpdate cfg force tools v).output)) ∧
    (∀ (genC : Bool) (desired : List String) (v : String) (t : ToolInput),
      ∀ w ∈ (TEMPLATE_ORDER.filter (fun u => desired.contains u)).takeWhile
          t.skillWriteOk,
        (reconcileTool true genC desired v t).fs.skillFile w = some (some v)) := by
  refine ⟨?_, ?_, ?_, ?_, ?_⟩
  · intro genS genC desired v sel tools
    exact processTools_tools_eq genS genC desired v sel tools
  · intro genS genC desired v sel tools
    exact processTools_failed_eq genS genC desired v sel tools
  · intro genS genC desired v t hS hC
    exact reconcileTool_error_none genS genC desired v t hS hC
  · intro cfg tools v force hne hsel
    exact ⟨fun h => runUpdate_updatedSummary_mem hne hsel h,
           fun h => runUpdate_failedSummary_mem hne hsel h⟩
  · intro genC desired v t
    exact reconcileTool_writesBeforeFailure genC desired v t

/-- C9 amended witness: the delete-failing tool reconciles with no recorded
error, and its run shows the aggregate updated summary. -/
theorem C9_failure_isolation_amended_witness :
    (reconcileTool true false
      (desiredWorkflowsOf cfgCoreSkills) "1.0.0" cmdRmFailTool).error = none ∧
    ((runUpdate cfgCoreSkills false [cmdRmFailTool] "1.0.0").updated ≠ [] →
      OutputLine.updatedSummary
        (runUpdate cfgCoreSkills false [cmdRmFailTool] "1.0.0").updated ∈
        (runUpdate cfgCoreSkills false [cmdRmFailTool] "1.0.0").output) :=
  ⟨C9_failure_isolation_amended.2.2.1 true false
     (desiredWorkflowsOf cfgCoreSkills) "1.0.0" cmdRmFailTool
     (fun _ => rfl) (fun _ => rfl),
   (C9_failure_isolation_amended.2.2.2.1 cfgCoreSkills [cmdRmFailTool] "1.0.0" false
     (by simp) (by decide)).1⟩


theorem processTools_spinnerFail_mem {genS genC : Bool} {desired : List String}
    {v : String} {sel : String → Bool} {tools : List ToolInput}
    {t : ToolInput} {e : String} (ht : t ∈ tools)
    (hsel : (sel t.toolId && t.hasSkillsDir) = true)
    (herr : (reconcileTool genS genC desired v t).error = some e) :
    OutputLine.spinnerFail t.name ∈
      (processTools genS genC desired v sel tools).output := by
  rw [processTools_output_eq]
  rw [List.mem_filterMap]
  refine ⟨t, ht, ?_⟩
  rw [if_pos hsel, herr]

/-- C10 counterexample: a recoverable error with no user-visible output.
With commands-only delivery and a skill directory whose recursive `rm`
fails, the run completes with no failure line of any kind (the tool is
even reported updated and the directory is still on disk); likewise an
unreadable persisted config makes migration return silently with no
output at all. -/
theorem C10_no_silent_swallow_counterexample :
    (runUpdate cfgCoreCommands false [skillRmFailTool] "1.0.0").failed = [] ∧
    ((runUpdate cfgCoreCommands false [skillRmFailTool] "1.0.0").output.all
      (fun l => !l.isFailureLine)) = true ∧
    (runUpdate cfgCoreCommands false [skillRmFailTool] "1.0.0").updated =
      ["Claude Code"] ∧
    ((runUpdate cfgCoreCommands false [skillRmFailTool] "1.0.0").tools.map
      (fun t => t.fs.skillDir "explore")) = [true] ∧
    (migrateIfNeededM ConfigFile.unreadable [staleExploreTool]).output = [] ∧
    (migrateIfNeededM ConfigFile.unreadable [staleExploreTool]).saved = false := by
  decide

/-- C10 amended: write failures are surfaced — a failing tool produces a
spinner failure line and, whenever the failed list is nonempty, the
aggregate `Failed:` summary line appears in the run's output — but
failures while deleting skill directories or command files are swallowed
without being recorded (a tool whose writes succeed reconciles with no
error regardless of delete failures), and a config-read failure during
migration skips migration silently, producing no output and leaving the
config unchanged. -/
theorem C10_no_silent_swallow_amended :
    (∀ (genS genC : Bool) (desired : List String) (v : String)
        (sel : String → Bool) (tools : List ToolInput) (t : ToolInput) (e : String),
      t ∈ tools → (sel t.toolId && t.hasSkillsDir) = true →
      (reconcileTool genS genC desired v t).error = some e →
      OutputLine.spinnerFail t.name ∈
        (processTools genS genC desired v sel tools).output) ∧
    (∀ (cfg : GlobalConfigR) (tools : List ToolInput) (v : String) (force : Bool),
      tools ≠ [] → (!force && (selectedForUpdate cfg tools v).isEmpty) = false →
      (runUpdate cfg force tools v).failed ≠ [] →
      OutputLine.failedSummary (runUpdate cfg force tools v).failed ∈
        (runUpdate cfg force tools v).output) ∧
    (∀ (genS genC : Bool) (desired : List String) (v : String) (t : ToolInput),
      (∀ w, t.skillWriteOk w = true) → (∀ w, t.cmdWriteOk w = true) →
      (reconcileTool genS genC desired v t).error = none) ∧
    (∀ tools : List ToolInput,
      (migrateIfNeededM ConfigFile.unreadable tools).output = [] ∧
      (migrateIfNeededM ConfigFile.unreadable tools).saved = false ∧
      (migrateIfNeededM ConfigFile.unreadable tools).config =
        ConfigFile.unreadable) := by
  refine ⟨?_, ?_, ?_, ?_⟩
  · intro genS genC desired v sel tools t e ht hsel herr
    exact processTools_spinnerFail_mem ht hsel herr
  · intro cfg tools v force hne hsel hfail
    exact runUpdate_failedSummary_mem hne hsel hfail
  · intro genS genC desired v t hS hC
    exact reconcileTool_error_none genS genC desired v t hS hC
  · intro tools
    exact ⟨rfl, rfl, rfl⟩

/-- C10 amended witness: a tool whose skill writes fail contributes a
spinner failure line to the loop output, and the unreadable-config
migration is silent and saves nothing. -/
theorem C10_no_silent_swallow_amended_witness :
    OutputLine.spinnerFail "Claude Code" ∈
      (processTools true true ["explore"] "1.0.0" (fun _ => true)
        [skillWriteFailTool]).output ∧
    (migrateIfNeededM ConfigFile.unreadable []).output = [] ∧
    (migrateIfNeededM ConfigFile.unreadable []).saved = false :=
  ⟨C10_no_silent_swallow_amended.1 true true ["explore"] "1.0.0" (fun _ => true)
     [skillWriteFailTool] skillWriteFailTool "write failed: skill explore"
     (List.mem_singleton.mpr rfl) rfl (by decide),
   (C10_no_silent_swallow_amended.2.2.2 []).1,
   (C10_no_silent_swallow_amended.2.2.2 []).2.1⟩

end OpenSpec
